import Mathlib

/-!
# SageScript patient-context aggregation pipeline — verification development

Shallow embedding of `src/pages/app.py` (class `App`), covering the
patient-context aggregation pipeline: the category extractors
(`get_allergies`, `get_conditions`, `get_medications`, `get_reports`),
the context assembler (`get_patient_context`) and the history view
builder (`display_patient_history`).

Modelling conventions:

* Clinical dates are ISO-formatted timestamp strings in the source, and the
  source compares them with Python's lexicographic string `>=`.  On strings
  of the common ISO layout this comparison coincides with chronological
  order, and the empty string (a missing date) sorts strictly below every
  real date.  We therefore model a date value as `Option Int` — a point on
  the time axis measured in days, `none` for the missing/empty date — and
  the source's string `<=` as `dateLe` below, under which `none` is the
  bottom element, exactly like `""` under lexicographic order.
* `datetime.now()` becomes a parameter `now : Int`, and
  `datetime.now() - timedelta(days = 30 * m)` becomes `now - 30 * m`.
* A FHIR search either raises (server error / unreachable) or returns a
  result envelope whose `entry` list may be absent or empty.  A fetch is
  modelled as `Except String (List ρ)`: `.error msg` for a raised
  exception, `.ok entries` for an envelope (absent `entry` ↦ `.ok []`,
  matching the source's `'entry' not in results or len(results['entry']) == 0`).
* `base64.b64decode(data).decode('utf-8')` is a call into the standard
  library that either returns the decoded text or raises; it is modelled
  as an explicit collaborator parameter `decode : String → Except String String`.
* The source probes nested optional dictionary fields with chains of
  `.get(..., default)`; each such chain is modelled as one already-flattened
  field of the corresponding resource structure, since no claim depends on
  the inner structure of those chains.
* `timeframe_months` is always one of `3`, `12`, `24` or `None`
  (see `get_patient_context` / `display_patient_history`), so Python's
  truthiness test `if timeframe_months:` coincides with `Option.isSome`
  and is modelled by matching on an `Option Nat`.
-/

namespace SageScript

/-- A clinical date: a point on the time axis in days, `none` = missing/empty. -/
abbrev DateVal := Option Int

/-- The source's Python string `<=` on ISO date strings: chronological order
with the empty string (`none`) strictly below every real date. -/
def dateLe : DateVal → DateVal → Bool
  | none, _ => true
  | some _, none => false
  | some a, some b => a ≤ b

/-- `cutoff_date = (datetime.now() - timedelta(days=30 * timeframe_months)).isoformat()`. -/
def cutoffOf (now : Int) (m : Nat) : Int := now - 30 * m

/-- Rendering of a date value into the ISO text the source interpolates into
its f-strings (`""` for a missing date); the claims never inspect this text,
so the day index is rendered with `toString`. -/
def isoStr : DateVal → String
  | none => ""
  | some d => toString d

/-- `c * n` for building the source's `"-" * 50` and `"=" * 50` rules. -/
def charRule (c : Char) (n : Nat) : String := String.mk (List.replicate n c)

/-! ## Raw FHIR resources (the dictionary fields the source reads) -/

/-- An `AllergyIntolerance` resource as read by `App.get_allergies`.
`codeCoding` models `resource['code']`'s `coding` key: `none` when the key is
absent, `some d` when present with `d = coding[0].get('display')`. -/
structure AllergyResource where
  codeText : String                 -- resource['code'].get('text', '')
  codeCoding : Option (Option String)
  type : String                     -- resource.get('type', '')
  category : List String            -- resource.get('category', [])
  criticality : String              -- resource.get('criticality', '')
  clinicalStatus : String           -- resource['clinicalStatus']['coding'][0].get('code', '')
  recordedDate : DateVal            -- resource.get('recorded_date', '')
  deriving DecidableEq, Repr

/-- A `Condition` resource as read by `App.get_conditions`. -/
structure CondResource where
  codingDisplay : String            -- resource['code']['coding'][0].get('display', '')
  clinicalStatus : String           -- resource.get('clinicalStatus',{}).get('coding',[{}])[0].get('code','')
  verificationStatus : String       -- resource.get('verificationStatus',{}).get('coding',[{}])[0].get('code','')
  category : List String            -- flattened coding display values
  onsetDate : DateVal               -- resource.get('onsetDateTime', '')
  abatementDate : DateVal           -- resource.get('abatementDateTime', '')
  recordedDate : DateVal            -- resource.get('recordedDate', '')
  deriving DecidableEq, Repr

/-- How a `MedicationRequest` names its drug: `medicationCodeableConcept`
with a `coding` list, `medicationCodeableConcept` with only `text`,
`medicationReference`, or neither key. -/
inductive MedSource where
  | codeableWithCoding (display : String)
  | codeableTextOnly (text : String)
  | reference (display : String)
  | absent
  deriving DecidableEq, Repr

/-- A `MedicationRequest` resource as read by `App.get_medications`. -/
structure MedResource where
  id : String                       -- resource.get('id', '')
  status : String                   -- resource.get('status', '')
  category : String                 -- resource.get('category',[{}])[0].get('coding',[{}])[0].get('display','')
  medication : MedSource
  authoredOn : DateVal              -- resource.get('authoredOn', '')
  requester : String                -- resource.get('requester', {}).get('display', '')
  reason : List String              -- displays of resource.get('reasonReference', [])
  deriving DecidableEq, Repr

/-- A `DiagnosticReport` resource as read by `App.get_reports`.
`presentedForm` is the list of the `data` payloads of the resource's
`presentedForm` attachments (absent key ↦ `[]`). -/
structure ReportResource where
  id : String                       -- resource.get('id', '')
  status : String                   -- resource.get('status', '')
  effectiveDate : DateVal           -- resource.get('effectiveDateTime', '')
  performer : String                -- resource.get('performer', [{}])[0].get('display', '')
  presentedForm : List String
  category : List String            -- flattened coding display values
  code : List String                -- displays of resource.get('code', {}).get('coding', [])
  deriving DecidableEq, Repr

/-! ## Normalised records (the `*_info` dictionaries) -/

/-- The `allergy_info` dictionary built per entry in `App.get_allergies`. -/
structure AllergyInfo where
  name : String
  type : String
  category : List String
  criticality : String
  clinicalStatus : String
  recordedDate : DateVal
  deriving DecidableEq, Repr

/-- The `condition_info` dictionary built per entry in `App.get_conditions`. -/
structure CondInfo where
  name : String
  clinicalStatus : String
  verificationStatus : String
  category : List String
  onsetDate : DateVal
  abatementDate : DateVal
  recordedDate : DateVal
  deriving DecidableEq, Repr

/-- The `med_info` dictionary built per entry in `App.get_medications`. -/
structure MedInfo where
  id : String
  status : String
  category : String
  medication : String
  authoredDate : DateVal
  prescriber : String
  reason : List String
  deriving DecidableEq, Repr

/-- The `report_info` dictionary built per entry in `App.get_reports`. -/
structure RepInfo where
  id : String
  status : String
  effectiveDate : DateVal
  performer : String
  content : String
  category : List String
  code : List String
  deriving DecidableEq, Repr

/-- Allergy display-name resolution (`app.py` lines 131–133): prefer
`code.text`, else fall back to `coding[0].get('display', 'Unknown')` when a
`coding` key is present. -/
def allergyName (r : AllergyResource) : String :=
  if r.codeText ≠ "" then r.codeText
  else match r.codeCoding with
    | some d => d.getD "Unknown"
    | none => r.codeText

/-- Build `allergy_info` from a resource (`app.py` lines 136–143). -/
def extractAllergy (r : AllergyResource) : AllergyInfo :=
  { name := allergyName r
    type := r.type
    category := r.category
    criticality := r.criticality
    clinicalStatus := r.clinicalStatus
    recordedDate := r.recordedDate }

/-- Build `condition_info` from a resource (`app.py` lines 173–182). -/
def extractCond (r : CondResource) : CondInfo :=
  { name := r.codingDisplay
    clinicalStatus := r.clinicalStatus
    verificationStatus := r.verificationStatus
    category := r.category
    onsetDate := r.onsetDate
    abatementDate := r.abatementDate
    recordedDate := r.recordedDate }

/-- Medication display-name resolution (`app.py` lines 253–259). -/
def medName : MedSource → String
  | .codeableWithCoding d => d
  | .codeableTextOnly t => t
  | .reference d => d
  | .absent => ""

/-- Build `med_info` from a resource (`app.py` lines 242–259). -/
def extractMed (r : MedResource) : MedInfo :=
  { id := r.id
    status := r.status
    category := r.category
    medication := medName r.medication
    authoredDate := r.authoredOn
    prescriber := r.requester
    reason := r.reason }

/-- Build `report_info` from a resource and its decoded payload
(`app.py` lines 332–341). -/
def extractReport (r : ReportResource) (content : String) : RepInfo :=
  { id := r.id
    status := r.status
    effectiveDate := r.effectiveDate
    performer := r.performer
    content := content
    category := r.category
    code := r.code }

/-! ## Classification loops -/

/-- The classification loop of `App.get_conditions` (`app.py` lines 169–193):
`clinical_status == 'active'` goes to the active list; otherwise, with a
timeframe set, the record is kept iff its `recorded_date` is truthy and
`recorded_date >= cutoff_date`; with no timeframe every non-active record is
kept.  Results are in source (entry) order. -/
def condPartition (tf : Option Nat) (now : Int) :
    List CondResource → List CondInfo × List CondInfo
  | [] => ([], [])
  | r :: rs =>
    let info := extractCond r
    let rest := condPartition tf now rs
    if info.clinicalStatus = "active" then (info :: rest.1, rest.2)
    else
      match tf with
      | some m =>
        if info.recordedDate.isSome && dateLe (some (cutoffOf now m)) info.recordedDate then
          (rest.1, info :: rest.2)
        else rest
      | none => (rest.1, info :: rest.2)

/-- The classification loop of `App.get_medications` (`app.py` lines 238–269):
status `'active'`/`'intended'` goes to the active list; status
`'stopped'`/`'completed'` is historical-eligible, admitted when no timeframe
is set or `authored_date >= cutoff_date`; any other status is dropped. -/
def medPartition (tf : Option Nat) (now : Int) :
    List MedResource → List MedInfo × List MedInfo
  | [] => ([], [])
  | r :: rs =>
    let info := extractMed r
    let rest := medPartition tf now rs
    if info.status = "active" ∨ info.status = "intended" then
      (info :: rest.1, rest.2)
    else if info.status = "stopped" ∨ info.status = "completed" then
      match tf with
      | some m =>
        if dateLe (some (cutoffOf now m)) info.authoredDate then
          (rest.1, info :: rest.2)
        else rest
      | none => (rest.1, info :: rest.2)
    else rest

/-- The classification loop of `App.get_reports` (`app.py` lines 322–350):
entries without a non-empty `presentedForm` are skipped; otherwise the first
attachment's payload is decoded (a decoding failure raises, aborting the
whole loop); with a timeframe set and a truthy `effective_date` the record
goes to `recent_reports` iff `effective_date >= cutoff_date` and to
`older_reports` otherwise; in every other case it goes to `recent_reports`. -/
def reportsPartition (decode : String → Except String String)
    (tf : Option Nat) (now : Int) :
    List ReportResource → Except String (List RepInfo × List RepInfo)
  | [] => .ok ([], [])
  | r :: rs =>
    match r.presentedForm with
    | [] => reportsPartition decode tf now rs
    | d :: _ =>
      match decode d with
      | .error e => .error e
      | .ok content =>
        match reportsPartition decode tf now rs with
        | .error e => .error e
        | .ok rest =>
          let info := extractReport r content
          match tf with
          | some m =>
            if info.effectiveDate.isSome then
              if dateLe (some (cutoffOf now m)) info.effectiveDate then
                .ok (info :: rest.1, rest.2)
              else .ok (rest.1, info :: rest.2)
            else .ok (info :: rest.1, rest.2)
          | none => .ok (info :: rest.1, rest.2)

/-! ## Textual rendering (the f-string blocks) -/

/-- One allergy paragraph (`app.py` lines 149–154). -/
def allergyEntry (a : AllergyInfo) : String :=
  "\n            Name: " ++ a.name ++
  "\n            Category: " ++ String.intercalate ", " a.category ++
  "\n            Criticality: " ++ a.criticality ++
  "\n            Clinical Status: " ++ a.clinicalStatus ++ "\n\n            "

/-- The allergy block (`app.py` lines 147–154). -/
def allergiesText (lst : List AllergyInfo) : String :=
  "The patient has the following allergies:\n" ++ String.join (lst.map allergyEntry)

/-- One active-condition paragraph (`app.py` lines 199–203). -/
def condActiveEntry (c : CondInfo) : String :=
  "\n                Condition: " ++ c.name ++
  "\n                Status: " ++ c.clinicalStatus ++
  "\n                Category: " ++
    (if c.category.isEmpty then "Not specified" else String.intercalate ", " c.category) ++
  "\n                Onset Date: " ++ isoStr c.onsetDate ++ "\n"

/-- One historical-condition paragraph (`app.py` lines 214–219). -/
def condHistEntry (c : CondInfo) : String :=
  "\n                Condition: " ++ c.name ++
  "\n                Status: " ++ c.clinicalStatus ++
  "\n                Category: " ++
    (if c.category.isEmpty then "Not specified" else String.intercalate ", " c.category) ++
  "\n                Onset Date: " ++ isoStr c.onsetDate ++
  "\n                Resolved Date: " ++ isoStr c.abatementDate ++ "\n"

/-- The historical-conditions section header (`app.py` lines 207–210). -/
def condHistHeader (tf : Option Nat) : String :=
  match tf with
  | some m => "\nResolved Conditions (Past " ++ toString m ++ " months):\n"
  | none => "\nHistorical Conditions:\n"

/-- The active-conditions section (`app.py` lines 197–205). -/
def condActiveBlock (act : List CondInfo) : String :=
  if act.isEmpty then "No active medical conditions.\n"
  else String.join (act.map condActiveEntry)

/-- The historical-conditions section (`app.py` lines 212–221). -/
def condHistBlock (hist : List CondInfo) : String :=
  if hist.isEmpty then "No historical conditions in the specified timeframe.\n"
  else String.join (hist.map condHistEntry)

/-- The conditions block (`app.py` lines 195–221). -/
def conditionsText (tf : Option Nat) (act hist : List CondInfo) : String :=
  "Patient's Current Medical Conditions:\n" ++ condActiveBlock act ++
  condHistHeader tf ++ condHistBlock hist

/-- One medication paragraph (`app.py` lines 275–284 and 295–304). -/
def medEntry (m : MedInfo) : String :=
  "\n                Medication: " ++ m.medication ++
  "\n                Status: " ++ m.status ++
  "\n                Category: " ++ m.category ++
  "\n                Prescribed by: " ++ m.prescriber ++
  "\n                Prescribed Date: " ++ isoStr m.authoredDate ++
  (if m.reason.isEmpty then "\n"
   else "\n            Reason: " ++ String.intercalate ", " m.reason ++ "\n")

/-- The historical-medications section header (`app.py` lines 288–291). -/
def medHistHeader (tf : Option Nat) : String :=
  match tf with
  | some m => "\nDiscontinued Medications (Past " ++ toString m ++ " months):\n"
  | none => "\nHistorical Medications:\n"

/-- The active-medications section (`app.py` lines 272–286). -/
def medActiveBlock (act : List MedInfo) : String :=
  if act.isEmpty then "No active medications.\n"
  else String.join (act.map medEntry)

/-- The historical-medications section (`app.py` lines 293–306). -/
def medHistBlock (hist : List MedInfo) : String :=
  if hist.isEmpty then "No historical medications in the specified timeframe.\n"
  else String.join (hist.map medEntry)

/-- The medications block (`app.py` lines 271–306). -/
def medicationsText (tf : Option Nat) (act hist : List MedInfo) : String :=
  "Patient's Current Medications:\n" ++ medActiveBlock act ++
  medHistHeader tf ++ medHistBlock hist

/-- One report paragraph (`app.py` lines 362–371 and 379–388). -/
def reportEntry (r : RepInfo) : String :=
  "\n    Report Type: " ++ String.intercalate ", " r.code ++
  "\n    Status: " ++ r.status ++
  "\n    Category: " ++ String.intercalate ", " r.category ++
  "\n    Date: " ++ isoStr r.effectiveDate ++
  "\n    Provider: " ++ r.performer ++
  "\n\n    Content:\n    " ++ r.content ++
  "\n    " ++ charRule '=' 50 ++ "\n"

/-- The reports block header (`app.py` lines 353–358). -/
def reportsHeader (tf : Option Nat) : String :=
  (match tf with
   | some m => "Diagnostic Reports (Past " ++ toString m ++ " months):\n"
   | none => "All Diagnostic Reports:\n") ++
  charRule '-' 50 ++ "\n"

/-- The recent-reports part of the reports block (`app.py` lines 360–373). -/
def recentReportsBlock (recent : List RepInfo) : String :=
  if recent.isEmpty then "No recent diagnostic reports found.\n"
  else String.join (recent.map reportEntry)

/-- The older-reports section (`app.py` lines 375–388): rendered only when a
timeframe is set and `older_reports` is non-empty, omitted otherwise. -/
def olderReportsSection (tf : Option Nat) (older : List RepInfo) : String :=
  match tf, older with
  | some m, _ :: _ =>
    "\nOlder Reports (Before " ++ toString m ++ " months):\n" ++
    charRule '-' 50 ++ "\n" ++ String.join (older.map reportEntry)
  | _, _ => ""

/-- The reports block (`app.py` lines 352–388). -/
def reportsText (tf : Option Nat) (recent older : List RepInfo) : String :=
  reportsHeader tf ++ recentReportsBlock recent ++ olderReportsSection tf older

/-! ## Category extractors -/

/-- `App.get_allergies` (`app.py` lines 121–155): a raised fetch error
propagates; an absent/empty `entry` list returns the `(None, None)`
no-records signal; otherwise the normalised list and its text block. -/
def get_allergies (resp : Except String (List AllergyResource)) :
    Except String (Option (List AllergyInfo × String)) :=
  match resp with
  | .error e => .error e
  | .ok entries =>
    if entries.isEmpty then .ok none
    else
      let lst := entries.map extractAllergy
      .ok (some (lst, allergiesText lst))

/-- `App.get_conditions` (`app.py` lines 157–223). -/
def get_conditions (resp : Except String (List CondResource))
    (tf : Option Nat) (now : Int) :
    Except String (Option (List CondInfo × List CondInfo × String)) :=
  match resp with
  | .error e => .error e
  | .ok entries =>
    if entries.isEmpty then .ok none
    else
      let p := condPartition tf now entries
      .ok (some (p.1, p.2, conditionsText tf p.1 p.2))

/-- `App.get_medications` (`app.py` lines 226–307). -/
def get_medications (resp : Except String (List MedResource))
    (tf : Option Nat) (now : Int) :
    Except String (Option (List MedInfo × List MedInfo × String)) :=
  match resp with
  | .error e => .error e
  | .ok entries =>
    if entries.isEmpty then .ok none
    else
      let p := medPartition tf now entries
      .ok (some (p.1, p.2, medicationsText tf p.1 p.2))

/-- `App.get_reports` (`app.py` lines 310–390). -/
def get_reports (decode : String → Except String String)
    (resp : Except String (List ReportResource))
    (tf : Option Nat) (now : Int) :
    Except String (Option (List RepInfo × List RepInfo × String)) :=
  match resp with
  | .error e => .error e
  | .ok entries =>
    if entries.isEmpty then .ok none
    else
      match reportsPartition decode tf now entries with
      | .error e => .error e
      | .ok p => .ok (some (p.1, p.2, reportsText tf p.1 p.2))

/-! ## Context assembler -/

/-- The timeframe resolution shared by `App.get_patient_context`
(`app.py` lines 392–400) and `App.display_patient_history` (lines 431–439). -/
def resolveTimeframe (timeframe : String) : Option Nat :=
  if timeframe = "Last 3 months" then some 3
  else if timeframe = "Last year" then some 12
  else if timeframe = "Last 2 years" then some 24
  else none

/-- One fetched response per resource kind, for a fixed patient. -/
structure FhirResponses where
  allergies : Except String (List AllergyResource)
  medications : Except String (List MedResource)
  conditions : Except String (List CondResource)
  reports : Except String (List ReportResource)

/-- One assembler step (`app.py` lines 404–426): when the category is
selected, run its extractor — a raised error propagates — and append the
returned text when it is truthy (non-`None` and non-empty). -/
def gpcStep (ctx : String) (sel : Bool)
    (step : Except String (Option String)) : Except String String :=
  if sel then
    match step with
    | .error e => .error e
    | .ok none => .ok ctx
    | .ok (some t) => .ok (if t = "" then ctx else ctx ++ t)
  else .ok ctx

/-- The body of `App.get_patient_context` after timeframe resolution
(`app.py` lines 402–429), with the four membership tests precomputed. -/
def assembleContext (decode : String → Except String String)
    (resp : FhirResponses) (tf : Option Nat)
    (selA selM selC selR : Bool) (now : Int) : Except String String :=
  (gpcStep "" selA ((get_allergies resp.allergies).map (Option.map Prod.snd))).bind fun c1 =>
  (gpcStep c1 selM ((get_medications resp.medications tf now).map
      (Option.map fun x => x.2.2))).bind fun c2 =>
  (gpcStep c2 selC ((get_conditions resp.conditions tf now).map
      (Option.map fun x => x.2.2))).bind fun c3 =>
  gpcStep c3 selR ((get_reports decode resp.reports tf now).map
      (Option.map fun x => x.2.2))

/-- `App.get_patient_context` (`app.py` lines 392–429). -/
def get_patient_context (decode : String → Except String String)
    (resp : FhirResponses) (timeframe : String)
    (context_types : List String) (now : Int) : Except String String :=
  assembleContext decode resp (resolveTimeframe timeframe)
    (decide ("Allergies" ∈ context_types))
    (decide ("Medications" ∈ context_types))
    (decide ("Previous Conditions" ∈ context_types))
    (decide ("Previous Reports" ∈ context_types)) now

/-! ## History view builder -/

/-- One row of the history view tables (`name`, `type`, `date`; the
`details` sub-dictionary only feeds `st.write` rendering and carries no
further information used by the view's structure). -/
structure HistItem where
  name : String
  type : String
  date : DateVal
  deriving DecidableEq, Repr

/-- Active-condition row (`app.py` lines 468–475). -/
def activeCondItem (c : CondInfo) : HistItem :=
  ⟨c.name, "Condition", c.onsetDate⟩

/-- Historical-condition row (`app.py` lines 532–539): its date is
`abatement_date or recorded_date`. -/
def histCondItem (c : CondInfo) : HistItem :=
  ⟨c.name, "Condition",
    match c.abatementDate with
    | some d => some d
    | none => c.recordedDate⟩

/-- Medication row (`app.py` lines 477–485 and 541–549). -/
def medItem (m : MedInfo) : HistItem :=
  ⟨m.medication, "Medication", m.authoredDate⟩

/-- Allergy row (`app.py` lines 487–495). -/
def allergyItem (a : AllergyInfo) : HistItem :=
  ⟨a.name, "Allergy", a.recordedDate⟩

/-- Report row (`app.py` lines 551–559). -/
def reportItem (r : RepInfo) : HistItem :=
  ⟨String.intercalate ", " r.code, "Report", r.effectiveDate⟩

/-- Insert one item into a descending-sorted list, after any
already-present item with an equal or larger key (stability). -/
def insertDesc (x : HistItem) : List HistItem → List HistItem
  | [] => [x]
  | y :: ys => if dateLe y.date x.date then x :: y :: ys else y :: insertDesc x ys

/-- `historical_items.sort(key=lambda x: x["date"] if x["date"] else "", reverse=True)`
(`app.py` line 562): Python's sort is stable, and `reverse=True` keeps
key-equal items in their original order, so its output is the unique stable
descending order — computed here by a stable insertion sort.  The key
function maps a falsy date to `""`, which in this model is already the
date value `none` itself. -/
def sortDesc : List HistItem → List HistItem
  | [] => []
  | x :: xs => insertDesc x (sortDesc xs)

/-- The body of `App.display_patient_history` after timeframe resolution
(`app.py` lines 440–562), with the four membership tests precomputed:
fetch the selected categories (an unselected category stays `None`), build
the active and historical row lists, and sort the historical rows. -/
def buildHistory (decode : String → Except String String)
    (resp : FhirResponses) (tf : Option Nat)
    (selA selM selC selR : Bool) (now : Int) :
    Except String (List HistItem × List HistItem) :=
  (if selA then get_allergies resp.allergies else .ok none).bind fun aRes =>
  (if selM then get_medications resp.medications tf now else .ok none).bind fun mRes =>
  (if selC then get_conditions resp.conditions tf now else .ok none).bind fun cRes =>
  (if selR then get_reports decode resp.reports tf now else .ok none).bind fun rRes =>
  let activeItems :=
    (match cRes with | some (act, _, _) => act.map activeCondItem | none => []) ++
    (match mRes with | some (act, _, _) => act.map medItem | none => []) ++
    (match aRes with | some (lst, _) => lst.map allergyItem | none => [])
  let historicalItems :=
    (match cRes with | some (_, hist, _) => hist.map histCondItem | none => []) ++
    (match mRes with | some (_, hist, _) => hist.map medItem | none => []) ++
    (match rRes with | some (recent, older, _) => (recent ++ older).map reportItem | none => [])
  .ok (activeItems, sortDesc historicalItems)

/-- `App.display_patient_history` (`app.py` lines 431–589), as the pair of
row lists it renders. -/
def display_patient_history (decode : String → Except String String)
    (resp : FhirResponses) (timeframe : String)
    (context_types : List String) (now : Int) :
    Except String (List HistItem × List HistItem) :=
  buildHistory decode resp (resolveTimeframe timeframe)
    (decide ("Allergies" ∈ context_types))
    (decide ("Medications" ∈ context_types))
    (decide ("Previous Conditions" ∈ context_types))
    (decide ("Previous Reports" ∈ context_types)) now

/-! ## Characterisation of the classification loops -/

/-- Active test of the conditions loop (`app.py` line 185), as a predicate
on the extracted record. -/
def condIsActive (i : CondInfo) : Bool := i.clinicalStatus = "active"

/-- Historical-admission test of the conditions loop (`app.py` lines
187–193), as a predicate on the extracted record. -/
def condHistKeep (tf : Option Nat) (now : Int) (i : CondInfo) : Bool :=
  if i.clinicalStatus = "active" then false
  else
    match tf with
    | some m => i.recordedDate.isSome && dateLe (some (cutoffOf now m)) i.recordedDate
    | none => true

/-- Active test of the medications loop (`app.py` line 262). -/
def medIsActive (i : MedInfo) : Bool := i.status = "active" ∨ i.status = "intended"

/-- Historical-admission test of the medications loop (`app.py` lines
264–269): only status `'stopped'`/`'completed'` is historical-eligible. -/
def medHistKeep (tf : Option Nat) (now : Int) (i : MedInfo) : Bool :=
  (i.status = "stopped" ∨ i.status = "completed") &&
    match tf with
    | some m => dateLe (some (cutoffOf now m)) i.authoredDate
    | none => true

theorem condPartition_fst (tf : Option Nat) (now : Int) (rs : List CondResource) :
    (condPartition tf now rs).1 = (rs.map extractCond).filter condIsActive := by
  induction rs with
  | nil => rfl
  | cons r rs ih =>
    by_cases hact : (extractCond r).clinicalStatus = "active"
    · simp [condPartition, List.filter_cons, condIsActive, hact, ih]
    · cases tf with
      | none => simp [condPartition, List.filter_cons, condIsActive, hact, ih]
      | some m =>
        by_cases hd : ((extractCond r).recordedDate.isSome &&
            dateLe (some (cutoffOf now m)) (extractCond r).recordedDate) = true
        · simp [condPartition, List.filter_cons, condIsActive, hact, hd, ih]
        · simp [condPartition, List.filter_cons, condIsActive, hact, hd, ih]

theorem condPartition_snd (tf : Option Nat) (now : Int) (rs : List CondResource) :
    (condPartition tf now rs).2 = (rs.map extractCond).filter (condHistKeep tf now) := by
  induction rs with
  | nil => rfl
  | cons r rs ih =>
    by_cases hact : (extractCond r).clinicalStatus = "active"
    · simp [condPartition, List.filter_cons, condHistKeep, hact, ih]
    · cases tf with
      | none => simp [condPartition, List.filter_cons, condHistKeep, hact, ih]
      | some m =>
        by_cases hd : ((extractCond r).recordedDate.isSome &&
            dateLe (some (cutoffOf now m)) (extractCond r).recordedDate) = true
        · simp [condPartition, List.filter_cons, condHistKeep, hact, hd, ih]
        · simp [condPartition, List.filter_cons, condHistKeep, hact, hd, ih]

theorem medPartition_fst (tf : Option Nat) (now : Int) (rs : List MedResource) :
    (medPartition tf now rs).1 = (rs.map extractMed).filter medIsActive := by
  induction rs with
  | nil => rfl
  | cons r rs ih =>
    by_cases hact : (extractMed r).status = "active" ∨ (extractMed r).status = "intended"
    · simp [medPartition, List.filter_cons, medIsActive, hact, ih]
    · by_cases hel : (extractMed r).status = "stopped" ∨ (extractMed r).status = "completed"
      · cases tf with
        | none => simp [medPartition, List.filter_cons, medIsActive, hact, hel, ih]
        | some m =>
          by_cases hd : dateLe (some (cutoffOf now m)) (extractMed r).authoredDate = true
          · simp [medPartition, List.filter_cons, medIsActive, hact, hel, hd, ih]
          · simp [medPartition, List.filter_cons, medIsActive, hact, hel, hd, ih]
      · simp [medPartition, List.filter_cons, medIsActive, hact, hel, ih]

theorem medPartition_snd (tf : Option Nat) (now : Int) (rs : List MedResource) :
    (medPartition tf now rs).2 = (rs.map extractMed).filter (medHistKeep tf now) := by
  induction rs with
  | nil => rfl
  | cons r rs ih =>
    by_cases hact : (extractMed r).status = "active" ∨ (extractMed r).status = "intended"
    · have hne : ¬((extractMed r).status = "stopped" ∨ (extractMed r).status = "completed") := by
        rcases hact with h | h <;> simp [h]
      simp [medPartition, List.filter_cons, medHistKeep, hact, hne, ih]
    · by_cases hel : (extractMed r).status = "stopped" ∨ (extractMed r).status = "completed"
      · cases tf with
        | none => simp [medPartition, List.filter_cons, medHistKeep, hact, hel, ih]
        | some m =>
          by_cases hd : dateLe (some (cutoffOf now m)) (extractMed r).authoredDate = true
          · simp [medPartition, List.filter_cons, medHistKeep, hact, hel, hd, ih]
          · simp [medPartition, List.filter_cons, medHistKeep, hact, hel, hd, ih]
      · simp [medPartition, List.filter_cons, medHistKeep, hact, hel, ih]

/-! ## Claim C3 -/

/-- A concrete medication with a status outside both the active-equivalent
set and the historical-eligible set. -/
def medUnknownStatus : MedResource :=
  { id := "m1", status := "unknown", category := "", medication := .absent,
    authoredOn := some 0, requester := "", reason := [] }

/-- C3 (counterexample): a fetched medication whose status `"unknown"` is
not active-equivalent, under the unbounded window, is not admitted to the
historical list — it is dropped from both lists — so the claim's
"admitted iff the window is unbounded or the date is in range" is false. -/
theorem claim3_counterexample :
    medUnknownStatus.status ≠ "active" ∧ medUnknownStatus.status ≠ "intended" ∧
    medPartition none 0 [medUnknownStatus] = ([], []) := by
  refine ⟨by decide, by decide, rfl⟩

/-- C3 (amended): a fetched condition is admitted to the historical list iff
its clinical status is not `"active"` and (the window is unbounded, or its
recorded date is present and on/after `now - 30·months`); a fetched
medication is admitted to the historical list iff its status is `"stopped"`
or `"completed"` and (the window is unbounded, or its authored date is
on/after `now - 30·months`); records failing these tests appear in neither
the active nor the historical list, characterised here for all four lists. -/
theorem claim3_amended (tf : Option Nat) (now : Int)
    (crs : List CondResource) (mrs : List MedResource) :
    (condPartition tf now crs).1 = (crs.map extractCond).filter condIsActive ∧
    (condPartition tf now crs).2 = (crs.map extractCond).filter (condHistKeep tf now) ∧
    (medPartition tf now mrs).1 = (mrs.map extractMed).filter medIsActive ∧
    (medPartition tf now mrs).2 = (mrs.map extractMed).filter (medHistKeep tf now) :=
  ⟨condPartition_fst tf now crs, condPartition_snd tf now crs,
   medPartition_fst tf now mrs, medPartition_snd tf now mrs⟩

/-! ## Claim C5 -/

/-- A stopped medication with a given authored date. -/
def stoppedMed (d : DateVal) : MedResource :=
  { id := "m2", status := "stopped", category := "", medication := .absent,
    authoredOn := d, requester := "", reason := [] }

/-- C5 (counterexample): the window `"Last year"` resolves to 12 months of
30 days = 360 days, so a `"stopped"` medication authored exactly one year
(365 days) before `now = 0` falls outside the cutoff and is *excluded* from
the historical list, not included as the claim states. -/
theorem claim5_counterexample :
    resolveTimeframe "Last year" = some 12 ∧
    (medPartition (resolveTimeframe "Last year") 0 [stoppedMed (some (-365))]).2 = [] := by
  refine ⟨rfl, by decide⟩

/-- C5 (amended): under the window `"Last year"` (resolved to 12 × 30 = 360
days), a `"stopped"` medication authored exactly at the cutoff
(`now - 360` days) is included in the historical list — boundary date
equality is included because the comparison is `>=` — while one authored
exactly one calendar year (365 days) before `now` is excluded. -/
theorem claim5_amended (now : Int) :
    resolveTimeframe "Last year" = some 12 ∧
    (medPartition (resolveTimeframe "Last year") now [stoppedMed (some (now - 360))]).2 =
      [extractMed (stoppedMed (some (now - 360)))] ∧
    (medPartition (resolveTimeframe "Last year") now [stoppedMed (some (now - 365))]).2 = [] := by
  refine ⟨rfl, ?_, ?_⟩
  · have h : dateLe (some (cutoffOf now 12)) (some (now - 360)) = true := by
      simp [dateLe, cutoffOf]
    simp [resolveTimeframe, medPartition, stoppedMed, extractMed, h]
  · have h : dateLe (some (cutoffOf now 12)) (some (now - 365)) = false := by
      simp [dateLe, cutoffOf]
      omega
    simp [resolveTimeframe, medPartition, stoppedMed, extractMed, h]

/-! ## Claim C4 -/

theorem exceptOk_inj {ε α : Type} {x y : α}
    (h : (Except.ok x : Except ε α) = .ok y) : x = y := by
  injection h

/-- Unfolding the reports loop over an entry without a payload
(`app.py` line 324: the guard fails and the entry is skipped). -/
theorem reportsPartition_cons_skip (decode : String → Except String String)
    (tf : Option Nat) (now : Int) (r : ReportResource) (rs : List ReportResource)
    (h : r.presentedForm = []) :
    reportsPartition decode tf now (r :: rs) = reportsPartition decode tf now rs := by
  simp only [reportsPartition, h]

/-- Unfolding the reports loop over an entry whose payload fails to decode
(`app.py` line 329: the raised exception aborts the loop). -/
theorem reportsPartition_cons_decodeError (decode : String → Except String String)
    (tf : Option Nat) (now : Int) (r : ReportResource) (rs : List ReportResource)
    (d e : String) (ds : List String)
    (hpf : r.presentedForm = d :: ds) (hdec : decode d = .error e) :
    reportsPartition decode tf now (r :: rs) = .error e := by
  simp only [reportsPartition, hpf, hdec]

/-- Unfolding the reports loop over an entry that decodes successfully. -/
theorem reportsPartition_cons_ok (decode : String → Except String String)
    (tf : Option Nat) (now : Int) (r : ReportResource) (rs : List ReportResource)
    (d c : String) (ds : List String)
    (hpf : r.presentedForm = d :: ds) (hdec : decode d = .ok c) :
    reportsPartition decode tf now (r :: rs) =
      match reportsPartition decode tf now rs with
      | .error e => .error e
      | .ok rest =>
        match tf with
        | some m =>
          if (extractReport r c).effectiveDate.isSome then
            if dateLe (some (cutoffOf now m)) (extractReport r c).effectiveDate then
              .ok (extractReport r c :: rest.1, rest.2)
            else .ok (rest.1, extractReport r c :: rest.2)
          else .ok (extractReport r c :: rest.1, rest.2)
        | none => .ok (extractReport r c :: rest.1, rest.2) := by
  simp only [reportsPartition, hpf, hdec]

/-- An entry that decodes successfully but carries no effective date always
goes to `recent_reports` (`app.py` lines 343–350: the `else` branch of
`if timeframe_months and report_info['effective_date']`). -/
theorem reportsPartition_cons_noDate (decode : String → Except String String)
    (tf : Option Nat) (now : Int) (r : ReportResource) (rs : List ReportResource)
    (d c : String) (ds : List String)
    (hpf : r.presentedForm = d :: ds) (hdec : decode d = .ok c)
    (hdate : r.effectiveDate = none) :
    reportsPartition decode tf now (r :: rs) =
      match reportsPartition decode tf now rs with
      | .error e => .error e
      | .ok rest => .ok (extractReport r c :: rest.1, rest.2) := by
  rw [reportsPartition_cons_ok decode tf now r rs d c ds hpf hdec]
  cases hrest : reportsPartition decode tf now rs with
  | error e => rfl
  | ok p =>
    cases tf with
    | none => rfl
    | some m =>
      have hds : (extractReport r c).effectiveDate.isSome = false := by
        simp [extractReport, hdate]
      simp [hds]

/-- A record with a payload, an ok decode and no effective date lands in the
`recent_reports` list wherever it sits in the fetched entries. -/
theorem reportsPartition_recent_noDate (decode : String → Except String String)
    (tf : Option Nat) (now : Int) (r : ReportResource) (d c : String)
    (ds : List String) (hpf : r.presentedForm = d :: ds) (hdec : decode d = .ok c)
    (hdate : r.effectiveDate = none) :
    ∀ es₁ es₂ rec old,
      reportsPartition decode tf now (es₁ ++ r :: es₂) = .ok (rec, old) →
      extractReport r c ∈ rec := by
  intro es₁
  induction es₁ with
  | nil =>
    intro es₂ rec old h
    rw [List.nil_append,
      reportsPartition_cons_noDate decode tf now r es₂ d c ds hpf hdec hdate] at h
    cases hrest : reportsPartition decode tf now es₂ with
    | error e =>
      rw [hrest] at h
      exact Except.noConfusion h
    | ok p =>
      rw [hrest] at h
      have h' : (Except.ok (extractReport r c :: p.1, p.2) :
          Except String (List RepInfo × List RepInfo)) = .ok (rec, old) := h
      have h1 : extractReport r c :: p.1 = rec := congrArg Prod.fst (exceptOk_inj h')
      rw [← h1]
      exact List.mem_cons_self _ _
  | cons s es₁ ih =>
    intro es₂ rec old h
    rw [List.cons_append] at h
    cases hs : s.presentedForm with
    | nil =>
      rw [reportsPartition_cons_skip decode tf now s _ hs] at h
      exact ih es₂ rec old h
    | cons d' ds' =>
      cases hdec' : decode d' with
      | error e =>
        rw [reportsPartition_cons_decodeError decode tf now s _ d' e ds' hs hdec'] at h
        exact Except.noConfusion h
      | ok c' =>
        rw [reportsPartition_cons_ok decode tf now s _ d' c' ds' hs hdec'] at h
        cases hrest : reportsPartition decode tf now (es₁ ++ r :: es₂) with
        | error e =>
          rw [hrest] at h
          exact Except.noConfusion h
        | ok p =>
          have hp : extractReport r c ∈ p.1 := ih es₂ p.1 p.2 hrest
          cases tf with
          | none =>
            simp only [hrest] at h
            have h1 : extractReport s c' :: p.1 = rec := congrArg Prod.fst (exceptOk_inj h)
            rw [← h1]
            exact List.mem_cons_of_mem _ hp
          | some m =>
            simp only [hrest] at h
            by_cases hds : (extractReport s c').effectiveDate.isSome = true
            · by_cases hle :
                  dateLe (some (cutoffOf now m)) (extractReport s c').effectiveDate = true
              · rw [if_pos hds, if_pos hle] at h
                have h1 : extractReport s c' :: p.1 = rec :=
                  congrArg Prod.fst (exceptOk_inj h)
                rw [← h1]
                exact List.mem_cons_of_mem _ hp
              · rw [if_pos hds, if_neg (by simp [hle])] at h
                have h1 : p.1 = rec := congrArg Prod.fst (exceptOk_inj h)
                rw [← h1]
                exact hp
            · rw [if_neg (by simp [hds])] at h
              have h1 : extractReport s c' :: p.1 = rec :=
                congrArg Prod.fst (exceptOk_inj h)
              rw [← h1]
              exact List.mem_cons_of_mem _ hp

/-- A decode collaborator that decodes every payload to itself. -/
def okDecode : String → Except String String := fun s => .ok s

/-- A `DiagnosticReport` with a payload but no `effectiveDateTime`. -/
def reportNoDate : ReportResource :=
  { id := "r1", status := "final", effectiveDate := none, performer := "",
    presentedForm := ["payload"], category := [], code := ["CBC"] }

/-- C4 (counterexample): a report with an empty relevant date under the
concrete 3-month window is *not* excluded — it is placed in the
recent-reports list and shown in the History View's historical list. -/
theorem claim4_counterexample :
    reportNoDate.effectiveDate = none ∧
    reportsPartition okDecode (some 3) 0 [reportNoDate] =
      .ok ([extractReport reportNoDate "payload"], []) ∧
    display_patient_history okDecode
      ⟨.ok [], .ok [], .ok [], .ok [reportNoDate]⟩ "Last 3 months"
      ["Previous Reports"] 0 =
      .ok ([], [reportItem (extractReport reportNoDate "payload")]) := by
  refine ⟨rfl, rfl, rfl⟩

/-- C4 (amended): a fetched non-active record with a missing/empty relevant
date is excluded from historical admission when a concrete window is set and
admitted when the window is unbounded — for conditions, and for medications
with status `"stopped"`/`"completed"` (a medication with any other
non-active status is dropped under every window); a report with a missing
date, by contrast, is always placed in the recent-reports list, whether or
not a window is set. -/
theorem claim4_amended (tf : Option Nat) (now : Int) :
    (∀ (crs : List CondResource) (r : CondResource), r ∈ crs →
       r.clinicalStatus ≠ "active" → r.recordedDate = none →
       (∀ m, tf = some m → extractCond r ∉ (condPartition tf now crs).2) ∧
       (tf = none → extractCond r ∈ (condPartition tf now crs).2)) ∧
    (∀ (mrs : List MedResource) (r : MedResource), r ∈ mrs →
       (r.status = "stopped" ∨ r.status = "completed") → r.authoredOn = none →
       (∀ m, tf = some m → extractMed r ∉ (medPartition tf now mrs).2) ∧
       (tf = none → extractMed r ∈ (medPartition tf now mrs).2)) ∧
    (∀ (decode : String → Except String String) (es₁ es₂ : List ReportResource)
       (r : ReportResource) (d c : String) (ds : List String)
       (rec old : List RepInfo),
       r.presentedForm = d :: ds → decode d = .ok c → r.effectiveDate = none →
       reportsPartition decode tf now (es₁ ++ r :: es₂) = .ok (rec, old) →
       extractReport r c ∈ rec) := by
  refine ⟨?_, ?_, ?_⟩
  · intro crs r hr hst hd
    constructor
    · intro m htf
      subst htf
      rw [condPartition_snd]
      simp [List.mem_filter, condHistKeep, extractCond, hst, hd]
    · intro htf
      subst htf
      rw [condPartition_snd]
      exact List.mem_filter.2 ⟨List.mem_map_of_mem _ hr,
        by simp [condHistKeep, extractCond, hst]⟩
  · intro mrs r hr hst hd
    constructor
    · intro m htf
      subst htf
      rw [medPartition_snd]
      simp [List.mem_filter, medHistKeep, extractMed, hd, dateLe]
    · intro htf
      subst htf
      rw [medPartition_snd]
      exact List.mem_filter.2 ⟨List.mem_map_of_mem _ hr,
        by simp [medHistKeep, extractMed]; tauto⟩
  · intro decode es₁ es₂ r d c ds rec old hpf hdec hd h
    exact reportsPartition_recent_noDate decode tf now r d c ds hpf hdec hd es₁ es₂ rec old h

/-- A resolved condition with no recorded date. -/
def condResolvedNoDate : CondResource :=
  { codingDisplay := "X", clinicalStatus := "resolved", verificationStatus := "",
    category := [], onsetDate := none, abatementDate := none, recordedDate := none }

/-- C4 (witness): the amended claim applied at concrete inputs for each of
the three extractors, under both a concrete window and the unbounded one. -/
theorem claim4_witness :
    extractCond condResolvedNoDate ∉ (condPartition (some 3) 0 [condResolvedNoDate]).2 ∧
    extractCond condResolvedNoDate ∈ (condPartition none 0 [condResolvedNoDate]).2 ∧
    extractMed (stoppedMed none) ∉ (medPartition (some 3) 0 [stoppedMed none]).2 ∧
    extractMed (stoppedMed none) ∈ (medPartition none 0 [stoppedMed none]).2 ∧
    extractReport reportNoDate "payload" ∈
      [extractReport reportNoDate "payload"] := by
  refine ⟨?_, ?_, ?_, ?_, ?_⟩
  · exact (((claim4_amended (some 3) 0).1 [condResolvedNoDate] condResolvedNoDate
      (List.mem_singleton.2 rfl) (by decide) rfl).1 3 rfl)
  · exact (((claim4_amended none 0).1 [condResolvedNoDate] condResolvedNoDate
      (List.mem_singleton.2 rfl) (by decide) rfl).2 rfl)
  · exact (((claim4_amended (some 3) 0).2.1 [stoppedMed none] (stoppedMed none)
      (List.mem_singleton.2 rfl) (Or.inl rfl) rfl).1 3 rfl)
  · exact (((claim4_amended none 0).2.1 [stoppedMed none] (stoppedMed none)
      (List.mem_singleton.2 rfl) (Or.inl rfl) rfl).2 rfl)
  · exact ((claim4_amended (some 3) 0).2.2 okDecode [] [] reportNoDate "payload" "payload"
      [] [extractReport reportNoDate "payload"] [] rfl rfl rfl rfl)

/-! ## Claim C10 -/

/-- C10: a `DiagnosticReport` entry without a non-empty `presentedForm` is
silently skipped: the reports loop produces the same recent/older lists (and
hence the same rendered text) with or without it, and no error arises from
it. -/
theorem claim10_skip_no_payload (decode : String → Except String String)
    (tf : Option Nat) (now : Int) (r : ReportResource)
    (h : r.presentedForm = []) :
    ∀ es₁ es₂, reportsPartition decode tf now (es₁ ++ r :: es₂) =
      reportsPartition decode tf now (es₁ ++ es₂) := by
  intro es₁
  induction es₁ with
  | nil =>
    intro es₂
    simp only [List.nil_append, reportsPartition, h]
  | cons s es₁ ih =>
    intro es₂
    simp only [List.cons_append, reportsPartition, List.append_eq, ih]

/-- An empty-payload report resource. -/
def reportEmptyForm : ReportResource :=
  { id := "r0", status := "final", effectiveDate := some 0, performer := "",
    presentedForm := [], category := [], code := ["Panel"] }

/-- C10 (witness): the skip theorem applied at a concrete input. -/
theorem claim10_witness :
    reportsPartition okDecode (some 3) 0 ([reportNoDate] ++ reportEmptyForm :: []) =
      reportsPartition okDecode (some 3) 0 ([reportNoDate] ++ []) :=
  claim10_skip_no_payload okDecode (some 3) 0 reportEmptyForm rfl [reportNoDate] []

/-! ## Claim C2 -/

/-- Once an undecodable record is reached, the loop raises: the error is the
decode error, whatever records follow, provided everything before the record
decoded fine. -/
theorem reportsPartition_error_after (decode : String → Except String String)
    (tf : Option Nat) (now : Int) (r : ReportResource) (rest : List ReportResource)
    (d e : String) (ds : List String)
    (hpf : r.presentedForm = d :: ds) (hdec : decode d = .error e) :
    ∀ es₁ p, reportsPartition decode tf now es₁ = .ok p →
      reportsPartition decode tf now (es₁ ++ r :: rest) = .error e := by
  intro es₁
  induction es₁ with
  | nil =>
    intro p _
    rw [List.nil_append]
    exact reportsPartition_cons_decodeError decode tf now r rest d e ds hpf hdec
  | cons s es₁ ih =>
    intro p hp
    rw [List.cons_append]
    cases hs : s.presentedForm with
    | nil =>
      rw [reportsPartition_cons_skip decode tf now s _ hs] at hp ⊢
      exact ih p hp
    | cons d' ds' =>
      cases hdec' : decode d' with
      | error e' =>
        rw [reportsPartition_cons_decodeError decode tf now s _ d' e' ds' hs hdec'] at hp
        exact Except.noConfusion hp
      | ok c' =>
        rw [reportsPartition_cons_ok decode tf now s _ d' c' ds' hs hdec'] at hp ⊢
        cases hes : reportsPartition decode tf now es₁ with
        | error e' =>
          rw [hes] at hp
          exact Except.noConfusion hp
        | ok q =>
          rw [ih q hes]

/-- A decode collaborator that fails on the payload `"bad"` — as
`base64.b64decode(...).decode('utf-8')` raises on undecodable input — and
succeeds on every other payload. -/
def badDecode : String → Except String String :=
  fun s => if s = "bad" then .error "Invalid base64-encoded string" else .ok s

/-- A report with a decodable payload and an early effective date. -/
def reportA : ReportResource :=
  { id := "a", status := "final", effectiveDate := some 10, performer := "",
    presentedForm := ["one"], category := [], code := ["R1"] }

/-- A report whose payload fails to decode. -/
def reportBad : ReportResource :=
  { id := "b", status := "final", effectiveDate := some 20, performer := "",
    presentedForm := ["bad"], category := [], code := ["R2"] }

/-- A report with a decodable payload after the malformed one. -/
def reportC : ReportResource :=
  { id := "c", status := "final", effectiveDate := some 30, performer := "",
    presentedForm := ["three"], category := [], code := ["R3"] }

/-- C2 (counterexample): with three fetched reports of which the second has
an undecodable payload, `get_reports` does not surface a per-record error
and render the other two — the raised decode error aborts the whole
category and every report is discarded. -/
theorem claim2_counterexample :
    get_reports badDecode (.ok [reportA, reportBad, reportC]) (some 3) 0 =
      .error "Invalid base64-encoded string" := by rfl

/-- C2 (amended): a record whose embedded payload fails structural decoding
raises an exception that aborts the whole reports category: as soon as the
loop reaches it (everything before it having decoded fine), `get_reports`
returns the decode error, and no record of the category — earlier or
later — is returned or rendered. -/
theorem claim2_amended (decode : String → Except String String)
    (tf : Option Nat) (now : Int) (es₁ rest : List ReportResource)
    (r : ReportResource) (d e : String) (ds : List String)
    (p : List RepInfo × List RepInfo)
    (hpf : r.presentedForm = d :: ds) (hdec : decode d = .error e)
    (hpre : reportsPartition decode tf now es₁ = .ok p) :
    get_reports decode (.ok (es₁ ++ r :: rest)) tf now = .error e := by
  have herr := reportsPartition_error_after decode tf now r rest d e ds hpf hdec es₁ p hpre
  have hne : (es₁ ++ r :: rest).isEmpty = false := by cases es₁ <;> rfl
  simp [get_reports, hne, herr]

/-- C2 (witness): the amended claim applied at a concrete input. -/
theorem claim2_witness :
    get_reports badDecode (.ok ([reportA] ++ reportBad :: [reportC])) (some 3) 0 =
      .error "Invalid base64-encoded string" :=
  claim2_amended badDecode (some 3) 0 [reportA] [reportC] reportBad "bad"
    "Invalid base64-encoded string" [] ([extractReport reportA "one"], []) rfl rfl rfl

/-! ## Claim C1 -/

/-- A successful allergy fetch always yields an ok result (the no-records
signal or the list and its text), never an error. -/
theorem get_allergies_ok (as : List AllergyResource) :
    ∃ o, get_allergies (.ok as) = .ok o := by
  cases as with
  | nil => exact ⟨none, rfl⟩
  | cons a as => exact ⟨_, rfl⟩

/-- A successful medication fetch always yields an ok result. -/
theorem get_medications_ok (ms : List MedResource) (tf : Option Nat) (now : Int) :
    ∃ o, get_medications (.ok ms) tf now = .ok o := by
  cases ms with
  | nil => exact ⟨none, rfl⟩
  | cons m ms => exact ⟨_, rfl⟩

/-- An assembler step over an ok extractor result never fails. -/
theorem gpcStep_isOk (ctx : String) (sel : Bool) (o : Option String) :
    ∃ c, gpcStep ctx sel (.ok o) = .ok c := by
  cases sel with
  | false => exact ⟨ctx, rfl⟩
  | true =>
    cases o with
    | none => exact ⟨ctx, rfl⟩
    | some t => exact ⟨if t = "" then ctx else ctx ++ t, rfl⟩

/-- A `FhirResponses` bundle with a failing conditions fetch. -/
def respCondFail : FhirResponses :=
  ⟨.ok [{ codeText := "Peanut", codeCoding := none, type := "allergy",
          category := ["food"], criticality := "high",
          clinicalStatus := "active", recordedDate := some 5 }],
   .ok [stoppedMed (some 0)], .error "ConnectionError", .ok []⟩

/-- C1 (counterexample): with the conditions fetch raising and every other
category fetching successfully, `get_patient_context` with all four
categories selected does not return the other categories' concatenated
text — it propagates the fetch error and returns no string at all. -/
theorem claim1_counterexample :
    get_patient_context okDecode respCondFail "Last 3 months"
      ["Allergies", "Medications", "Previous Conditions", "Previous Reports"] 0 =
      .error "ConnectionError" := by rfl

/-- C1 (amended): the assembler has no fault isolation across categories —
if the conditions fetch raises while the allergies and medications fetches
return normally and conditions is among the selected categories,
`get_patient_context` propagates the error and returns the other
categories' text of no category at all; only a category whose fetch
*succeeds with zero entries* is silently omitted. -/
theorem claim1_amended (decode : String → Except String String)
    (resp : FhirResponses) (timeframe : String) (cts : List String) (now : Int)
    (e : String) (as : List AllergyResource) (ms : List MedResource)
    (ha : resp.allergies = .ok as) (hm : resp.medications = .ok ms)
    (hc : resp.conditions = .error e) (hsel : "Previous Conditions" ∈ cts) :
    get_patient_context decode resp timeframe cts now = .error e := by
  obtain ⟨oa, hoa⟩ := get_allergies_ok as
  obtain ⟨om, hom⟩ := get_medications_ok ms (resolveTimeframe timeframe) now
  obtain ⟨c1, h1⟩ := gpcStep_isOk "" (decide ("Allergies" ∈ cts)) (oa.map Prod.snd)
  obtain ⟨c2, h2⟩ :=
    gpcStep_isOk c1 (decide ("Medications" ∈ cts)) (om.map fun x => x.2.2)
  have hsc : decide ("Previous Conditions" ∈ cts) = true := decide_eq_true hsel
  simp only [get_patient_context, assembleContext, ha, hm, hc, hoa, hom,
    Except.map, h1, Except.bind]
  simp only [h2, Except.bind]
  simp only [hsc, gpcStep, if_true, get_conditions, Except.map, Except.bind]

/-- C1 (witness): the amended claim applied at a concrete input. -/
theorem claim1_witness :
    get_patient_context okDecode
      ⟨.ok [], .ok [], .error "boom", .ok []⟩
      "Last year" ["Previous Conditions"] 0 = .error "boom" :=
  claim1_amended okDecode ⟨.ok [], .ok [], .error "boom", .ok []⟩
    "Last year" ["Previous Conditions"] 0 "boom" [] [] rfl rfl rfl
    (List.mem_singleton.2 rfl)

/-! ## Claim C6 -/

/-- What one selected category contributes to the assembled context string:
its extractor's text when the extractor returned one, `""` otherwise. -/
def contextBlock (sel : Bool) (step : Except String (Option String)) : String :=
  if sel then
    match step with
    | .ok (some t) => t
    | _ => ""
  else ""

/-- An ok assembler step appends exactly the category's context block. -/
theorem gpcStep_ok_eq (ctx : String) (sel : Bool)
    (step : Except String (Option String)) (c : String)
    (h : gpcStep ctx sel step = .ok c) : c = ctx ++ contextBlock sel step := by
  cases sel with
  | false =>
    have hc : ctx = c := exceptOk_inj h
    simp [contextBlock, ← hc]
  | true =>
    cases step with
    | error e => exact absurd h (by simp [gpcStep])
    | ok o =>
      cases o with
      | none =>
        have hc : ctx = c := exceptOk_inj h
        simp [contextBlock, ← hc]
      | some t =>
        have hc : (if t = "" then ctx else ctx ++ t) = c := exceptOk_inj h
        by_cases ht : t = ""
        · rw [if_pos ht] at hc
          simp [contextBlock, ← hc, ht]
        · rw [if_neg ht] at hc
          simp [contextBlock, ← hc]

/-- Whenever the assembler returns a string, that string is the
concatenation of the four categories' blocks in the fixed order
Allergies, Medications, Conditions, Reports. -/
theorem assembleContext_ok (decode : String → Except String String)
    (resp : FhirResponses) (tf : Option Nat)
    (selA selM selC selR : Bool) (now : Int) (s : String)
    (h : assembleContext decode resp tf selA selM selC selR now = .ok s) :
    s = contextBlock selA ((get_allergies resp.allergies).map (Option.map Prod.snd)) ++
        contextBlock selM ((get_medications resp.medications tf now).map
          (Option.map fun x => x.2.2)) ++
        contextBlock selC ((get_conditions resp.conditions tf now).map
          (Option.map fun x => x.2.2)) ++
        contextBlock selR ((get_reports decode resp.reports tf now).map
          (Option.map fun x => x.2.2)) := by
  unfold assembleContext at h
  cases hA : gpcStep "" selA ((get_allergies resp.allergies).map (Option.map Prod.snd)) with
  | error e =>
    simp only [hA, Except.bind] at h
    exact Except.noConfusion h
  | ok c1 =>
    simp only [hA, Except.bind] at h
    cases hM : gpcStep c1 selM ((get_medications resp.medications tf now).map
        (Option.map fun x => x.2.2)) with
    | error e =>
      simp only [hM, Except.bind] at h
      exact Except.noConfusion h
    | ok c2 =>
      simp only [hM, Except.bind] at h
      cases hC : gpcStep c2 selC ((get_conditions resp.conditions tf now).map
          (Option.map fun x => x.2.2)) with
      | error e =>
        simp only [hC, Except.bind] at h
        exact Except.noConfusion h
      | ok c3 =>
        simp only [hC, Except.bind] at h
        have e4 := gpcStep_ok_eq c3 selR _ s h
        have e3 := gpcStep_ok_eq c2 selC _ c3 hC
        have e2 := gpcStep_ok_eq c1 selM _ c2 hM
        have e1 := gpcStep_ok_eq "" selA _ c1 hA
        rw [e4, e3, e2, e1, String.empty_append]

/-- C6: the assembled patient context depends on the selected categories
only through membership — any two selections with the same members produce
the same string — and whenever a string is returned it is the concatenation
of the categories' blocks in the fixed order Allergies, Medications,
Conditions, Reports, with nothing between the blocks. -/
theorem claim6_fixed_order (decode : String → Except String String)
    (resp : FhirResponses) (timeframe : String) (now : Int)
    (cts cts' : List String) (hmem : ∀ s, s ∈ cts ↔ s ∈ cts') :
    get_patient_context decode resp timeframe cts now =
      get_patient_context decode resp timeframe cts' now ∧
    ∀ s, get_patient_context decode resp timeframe cts now = .ok s →
      s = contextBlock (decide ("Allergies" ∈ cts))
            ((get_allergies resp.allergies).map (Option.map Prod.snd)) ++
          contextBlock (decide ("Medications" ∈ cts))
            ((get_medications resp.medications (resolveTimeframe timeframe) now).map
              (Option.map fun x => x.2.2)) ++
          contextBlock (decide ("Previous Conditions" ∈ cts))
            ((get_conditions resp.conditions (resolveTimeframe timeframe) now).map
              (Option.map fun x => x.2.2)) ++
          contextBlock (decide ("Previous Reports" ∈ cts))
            ((get_reports decode resp.reports (resolveTimeframe timeframe) now).map
              (Option.map fun x => x.2.2)) := by
  constructor
  · have hA : decide ("Allergies" ∈ cts) = decide ("Allergies" ∈ cts') :=
      decide_eq_decide.2 (hmem _)
    have hM : decide ("Medications" ∈ cts) = decide ("Medications" ∈ cts') :=
      decide_eq_decide.2 (hmem _)
    have hC : decide ("Previous Conditions" ∈ cts) =
        decide ("Previous Conditions" ∈ cts') := decide_eq_decide.2 (hmem _)
    have hR : decide ("Previous Reports" ∈ cts) =
        decide ("Previous Reports" ∈ cts') := decide_eq_decide.2 (hmem _)
    simp only [get_patient_context, hA, hM, hC, hR]
  · intro s h
    exact assembleContext_ok decode resp (resolveTimeframe timeframe) _ _ _ _ now s h

/-- C6 (witness): the invariance applied to two selections that differ only
in their order, over a concrete response bundle. -/
theorem claim6_witness :
    get_patient_context okDecode ⟨.ok [], .ok [stoppedMed (some 0)], .ok [], .ok []⟩
      "Last year" ["Medications", "Allergies"] 0 =
    get_patient_context okDecode ⟨.ok [], .ok [stoppedMed (some 0)], .ok [], .ok []⟩
      "Last year" ["Allergies", "Medications"] 0 :=
  (claim6_fixed_order okDecode ⟨.ok [], .ok [stoppedMed (some 0)], .ok [], .ok []⟩
    "Last year" 0 ["Medications", "Allergies"] ["Allergies", "Medications"]
    (by intro s; simp [List.mem_cons]; exact Or.comm)).1

/-! ## Claim C7 -/

/-- An assembler step whose extractor signalled "no records" leaves the
context unchanged, selected or not. -/
theorem gpcStep_none (ctx : String) (sel : Bool) :
    gpcStep ctx sel (.ok none) = .ok ctx := by
  cases sel <;> rfl

/-- When the allergies fetch returns zero entries, the assembled context
does not depend on whether Allergies is selected. -/
theorem assembleContext_selA_irrel (decode : String → Except String String)
    (resp : FhirResponses) (tf : Option Nat)
    (selA selA' selM selC selR : Bool) (now : Int)
    (hfetch : resp.allergies = .ok []) :
    assembleContext decode resp tf selA selM selC selR now =
      assembleContext decode resp tf selA' selM selC selR now := by
  have hga : get_allergies resp.allergies = .ok none := by rw [hfetch]; rfl
  simp only [assembleContext, hga, Except.map, Option.map, gpcStep_none]

/-- When the medications fetch returns zero entries, the assembled context
does not depend on whether Medications is selected. -/
theorem assembleContext_selM_irrel (decode : String → Except String String)
    (resp : FhirResponses) (tf : Option Nat)
    (selA selM selM' selC selR : Bool) (now : Int)
    (hfetch : resp.medications = .ok []) :
    assembleContext decode resp tf selA selM selC selR now =
      assembleContext decode resp tf selA selM' selC selR now := by
  have hgm : get_medications resp.medications tf now = .ok none := by rw [hfetch]; rfl
  simp only [assembleContext, hgm, Except.map, Option.map, gpcStep_none]

/-- When the conditions fetch returns zero entries, the assembled context
does not depend on whether Previous Conditions is selected. -/
theorem assembleContext_selC_irrel (decode : String → Except String String)
    (resp : FhirResponses) (tf : Option Nat)
    (selA selM selC selC' selR : Bool) (now : Int)
    (hfetch : resp.conditions = .ok []) :
    assembleContext decode resp tf selA selM selC selR now =
      assembleContext decode resp tf selA selM selC' selR now := by
  have hgc : get_conditions resp.conditions tf now = .ok none := by rw [hfetch]; rfl
  simp only [assembleContext, hgc, Except.map, Option.map, gpcStep_none]

/-- When the reports fetch returns zero entries, the assembled context does
not depend on whether Previous Reports is selected. -/
theorem assembleContext_selR_irrel (decode : String → Except String String)
    (resp : FhirResponses) (tf : Option Nat)
    (selA selM selC selR selR' : Bool) (now : Int)
    (hfetch : resp.reports = .ok []) :
    assembleContext decode resp tf selA selM selC selR now =
      assembleContext decode resp tf selA selM selC selR' now := by
  have hgr : get_reports decode resp.reports tf now = .ok none := by rw [hfetch]; rfl
  simp only [assembleContext, hgr, Except.map, Option.map, gpcStep_none]

/-- Inversion of a successful history build: the four per-category results
and the exact composition of the two displayed lists. -/
theorem buildHistory_ok_inv (decode : String → Except String String)
    (resp : FhirResponses) (tf : Option Nat) (selA selM selC selR : Bool)
    (now : Int) (act hist : List HistItem)
    (h : buildHistory decode resp tf selA selM selC selR now = .ok (act, hist)) :
    ∃ aRes mRes cRes rRes,
      (if selA then get_allergies resp.allergies else .ok none) = .ok aRes ∧
      (if selM then get_medications resp.medications tf now else .ok none) = .ok mRes ∧
      (if selC then get_conditions resp.conditions tf now else .ok none) = .ok cRes ∧
      (if selR then get_reports decode resp.reports tf now else .ok none) = .ok rRes ∧
      act = (match cRes with | some (a, _, _) => a.map activeCondItem | none => []) ++
            (match mRes with | some (a, _, _) => a.map medItem | none => []) ++
            (match aRes with | some (l, _) => l.map allergyItem | none => []) ∧
      hist = sortDesc
            ((match cRes with | some (_, hh, _) => hh.map histCondItem | none => []) ++
             (match mRes with | some (_, hh, _) => hh.map medItem | none => []) ++
             (match rRes with | some (r1, r2, _) => (r1 ++ r2).map reportItem | none => [])) := by
  unfold buildHistory at h
  cases hA : (if selA then get_allergies resp.allergies else .ok none) with
  | error e => simp only [hA, Except.bind] at h; exact Except.noConfusion h
  | ok aRes =>
    simp only [hA, Except.bind] at h
    cases hM : (if selM then get_medications resp.medications tf now else .ok none) with
    | error e => simp only [hM, Except.bind] at h; exact Except.noConfusion h
    | ok mRes =>
      simp only [hM, Except.bind] at h
      cases hC : (if selC then get_conditions resp.conditions tf now else .ok none) with
      | error e => simp only [hC, Except.bind] at h; exact Except.noConfusion h
      | ok cRes =>
        simp only [hC, Except.bind] at h
        cases hR : (if selR then get_reports decode resp.reports tf now else .ok none) with
        | error e => simp only [hR, Except.bind] at h; exact Except.noConfusion h
        | ok rRes =>
          simp only [hR, Except.bind] at h
          have hx := exceptOk_inj h
          exact ⟨aRes, mRes, cRes, rRes, rfl, rfl, rfl, rfl,
            (congrArg Prod.fst hx).symm, (congrArg Prod.snd hx).symm⟩

theorem mem_insertDesc (x y : HistItem) (l : List HistItem) :
    y ∈ insertDesc x l ↔ y = x ∨ y ∈ l := by
  induction l with
  | nil => simp [insertDesc]
  | cons z l ih =>
    by_cases hz : dateLe z.date x.date = true
    · simp only [insertDesc]
      rw [if_pos hz]
      simp [List.mem_cons]
    · simp only [insertDesc]
      rw [if_neg hz]
      simp only [List.mem_cons, ih]
      tauto

theorem mem_sortDesc (y : HistItem) (l : List HistItem) :
    y ∈ sortDesc l ↔ y ∈ l := by
  induction l with
  | nil => simp [sortDesc]
  | cons x l ih => simp [sortDesc, mem_insertDesc, ih, List.mem_cons]

/-- Every item produced by mapping a constant-type row builder has that
type tag. -/
theorem mem_map_type {α : Type} (f : α → HistItem) (t : String)
    (hf : ∀ a, (f a).type = t) (l : List α) (it : HistItem)
    (h : it ∈ l.map f) : it.type = t := by
  obtain ⟨a, _, rfl⟩ := List.mem_map.1 h
  exact hf a

/-- If a category's fetch succeeds with zero entries, its selection-step
result in the history build is the no-records value. -/
theorem hist_step_none {β : Type} (sel : Bool)
    (fetch : Except String (Option β)) (hf : fetch = .ok none) :
    (if sel then fetch else .ok none) = .ok none := by
  cases sel <;> simp [hf]

/-- Which categories can have contributed an item of the Active list. -/
theorem mem_act_parts (aRes : Option (List AllergyInfo × String))
    (mRes : Option (List MedInfo × List MedInfo × String))
    (cRes : Option (List CondInfo × List CondInfo × String)) (it : HistItem)
    (hit : it ∈
      (match cRes with | some (a, _, _) => a.map activeCondItem | none => []) ++
      (match mRes with | some (a, _, _) => a.map medItem | none => []) ++
      (match aRes with | some (l, _) => l.map allergyItem | none => [])) :
    (it.type = "Condition" ∧ cRes ≠ none) ∨ (it.type = "Medication" ∧ mRes ≠ none) ∨
    (it.type = "Allergy" ∧ aRes ≠ none) := by
  rcases List.mem_append.1 hit with h12 | h3
  · rcases List.mem_append.1 h12 with h1 | h2
    · cases cRes with
      | none => exact absurd h1 (List.not_mem_nil it)
      | some p =>
        obtain ⟨a, hh, txt⟩ := p
        exact Or.inl ⟨mem_map_type activeCondItem "Condition" (fun c => rfl) a it h1,
          by simp⟩
    · cases mRes with
      | none => exact absurd h2 (List.not_mem_nil it)
      | some p =>
        obtain ⟨a, hh, txt⟩ := p
        exact Or.inr (Or.inl ⟨mem_map_type medItem "Medication" (fun m => rfl) a it h2,
          by simp⟩)
  · cases aRes with
    | none => exact absurd h3 (List.not_mem_nil it)
    | some p =>
      obtain ⟨l, txt⟩ := p
      exact Or.inr (Or.inr ⟨mem_map_type allergyItem "Allergy" (fun a => rfl) l it h3,
        by simp⟩)

/-- Which categories can have contributed an item of the Historical list. -/
theorem mem_hist_parts
    (mRes : Option (List MedInfo × List MedInfo × String))
    (cRes : Option (List CondInfo × List CondInfo × String))
    (rRes : Option (List RepInfo × List RepInfo × String)) (it : HistItem)
    (hit : it ∈ sortDesc
      ((match cRes with | some (_, hh, _) => hh.map histCondItem | none => []) ++
       (match mRes with | some (_, hh, _) => hh.map medItem | none => []) ++
       (match rRes with | some (r1, r2, _) => (r1 ++ r2).map reportItem | none => []))) :
    (it.type = "Condition" ∧ cRes ≠ none) ∨ (it.type = "Medication" ∧ mRes ≠ none) ∨
    (it.type = "Report" ∧ rRes ≠ none) := by
  have hit' := (mem_sortDesc it _).1 hit
  rcases List.mem_append.1 hit' with h12 | h3
  · rcases List.mem_append.1 h12 with h1 | h2
    · cases cRes with
      | none => exact absurd h1 (List.not_mem_nil it)
      | some p =>
        obtain ⟨a, hh, txt⟩ := p
        exact Or.inl ⟨mem_map_type histCondItem "Condition" (fun c => rfl) hh it h1,
          by simp⟩
    · cases mRes with
      | none => exact absurd h2 (List.not_mem_nil it)
      | some p =>
        obtain ⟨a, hh, txt⟩ := p
        exact Or.inr (Or.inl ⟨mem_map_type medItem "Medication" (fun m => rfl) hh it h2,
          by simp⟩)
  · cases rRes with
    | none => exact absurd h3 (List.not_mem_nil it)
    | some p =>
      obtain ⟨r1, r2, txt⟩ := p
      exact Or.inr (Or.inr ⟨mem_map_type reportItem "Report" (fun r => rfl) (r1 ++ r2) it h3,
        by simp⟩)

/-- Dropping an empty-result Allergies category from the selection does not
change the assembled context. -/
theorem gpc_drop_allergies (decode : String → Except String String)
    (resp : FhirResponses) (timeframe : String) (cts : List String) (now : Int)
    (hfetch : resp.allergies = .ok []) :
    get_patient_context decode resp timeframe cts now =
      get_patient_context decode resp timeframe (cts.filter (· != "Allergies")) now := by
  have hM : decide ("Medications" ∈ cts.filter (· != "Allergies")) =
      decide ("Medications" ∈ cts) :=
    decide_eq_decide.2 ⟨fun h => (List.mem_filter.1 h).1,
      fun h => List.mem_filter.2 ⟨h, by decide⟩⟩
  have hC : decide ("Previous Conditions" ∈ cts.filter (· != "Allergies")) =
      decide ("Previous Conditions" ∈ cts) :=
    decide_eq_decide.2 ⟨fun h => (List.mem_filter.1 h).1,
      fun h => List.mem_filter.2 ⟨h, by decide⟩⟩
  have hR : decide ("Previous Reports" ∈ cts.filter (· != "Allergies")) =
      decide ("Previous Reports" ∈ cts) :=
    decide_eq_decide.2 ⟨fun h => (List.mem_filter.1 h).1,
      fun h => List.mem_filter.2 ⟨h, by decide⟩⟩
  simp only [get_patient_context, hM, hC, hR]
  exact assembleContext_selA_irrel decode resp _ _ _ _ _ _ now hfetch

/-- Dropping an empty-result Medications category from the selection does
not change the assembled context. -/
theorem gpc_drop_medications (decode : String → Except String String)
    (resp : FhirResponses) (timeframe : String) (cts : List String) (now : Int)
    (hfetch : resp.medications = .ok []) :
    get_patient_context decode resp timeframe cts now =
      get_patient_context decode resp timeframe (cts.filter (· != "Medications")) now := by
  have hA : decide ("Allergies" ∈ cts.filter (· != "Medications")) =
      decide ("Allergies" ∈ cts) :=
    decide_eq_decide.2 ⟨fun h => (List.mem_filter.1 h).1,
      fun h => List.mem_filter.2 ⟨h, by decide⟩⟩
  have hC : decide ("Previous Conditions" ∈ cts.filter (· != "Medications")) =
      decide ("Previous Conditions" ∈ cts) :=
    decide_eq_decide.2 ⟨fun h => (List.mem_filter.1 h).1,
      fun h => List.mem_filter.2 ⟨h, by decide⟩⟩
  have hR : decide ("Previous Reports" ∈ cts.filter (· != "Medications")) =
      decide ("Previous Reports" ∈ cts) :=
    decide_eq_decide.2 ⟨fun h => (List.mem_filter.1 h).1,
      fun h => List.mem_filter.2 ⟨h, by decide⟩⟩
  simp only [get_patient_context, hA, hC, hR]
  exact assembleContext_selM_irrel decode resp _ _ _ _ _ _ now hfetch

/-- Dropping an empty-result Previous Conditions category from the selection
does not change the assembled context. -/
theorem gpc_drop_conditions (decode : String → Except String String)
    (resp : FhirResponses) (timeframe : String) (cts : List String) (now : Int)
    (hfetch : resp.conditions = .ok []) :
    get_patient_context decode resp timeframe cts now =
      get_patient_context decode resp timeframe
        (cts.filter (· != "Previous Conditions")) now := by
  have hA : decide ("Allergies" ∈ cts.filter (· != "Previous Conditions")) =
      decide ("Allergies" ∈ cts) :=
    decide_eq_decide.2 ⟨fun h => (List.mem_filter.1 h).1,
      fun h => List.mem_filter.2 ⟨h, by decide⟩⟩
  have hM : decide ("Medications" ∈ cts.filter (· != "Previous Conditions")) =
      decide ("Medications" ∈ cts) :=
    decide_eq_decide.2 ⟨fun h => (List.mem_filter.1 h).1,
      fun h => List.mem_filter.2 ⟨h, by decide⟩⟩
  have hR : decide ("Previous Reports" ∈ cts.filter (· != "Previous Conditions")) =
      decide ("Previous Reports" ∈ cts) :=
    decide_eq_decide.2 ⟨fun h => (List.mem_filter.1 h).1,
      fun h => List.mem_filter.2 ⟨h, by decide⟩⟩
  simp only [get_patient_context, hA, hM, hR]
  exact assembleContext_selC_irrel decode resp _ _ _ _ _ _ now hfetch

/-- Dropping an empty-result Previous Reports category from the selection
does not change the assembled context. -/
theorem gpc_drop_reports (decode : String → Except String String)
    (resp : FhirResponses) (timeframe : String) (cts : List String) (now : Int)
    (hfetch : resp.reports = .ok []) :
    get_patient_context decode resp timeframe cts now =
      get_patient_context decode resp timeframe
        (cts.filter (· != "Previous Reports")) now := by
  have hA : decide ("Allergies" ∈ cts.filter (· != "Previous Reports")) =
      decide ("Allergies" ∈ cts) :=
    decide_eq_decide.2 ⟨fun h => (List.mem_filter.1 h).1,
      fun h => List.mem_filter.2 ⟨h, by decide⟩⟩
  have hM : decide ("Medications" ∈ cts.filter (· != "Previous Reports")) =
      decide ("Medications" ∈ cts) :=
    decide_eq_decide.2 ⟨fun h => (List.mem_filter.1 h).1,
      fun h => List.mem_filter.2 ⟨h, by decide⟩⟩
  have hC : decide ("Previous Conditions" ∈ cts.filter (· != "Previous Reports")) =
      decide ("Previous Conditions" ∈ cts) :=
    decide_eq_decide.2 ⟨fun h => (List.mem_filter.1 h).1,
      fun h => List.mem_filter.2 ⟨h, by decide⟩⟩
  simp only [get_patient_context, hA, hM, hC]
  exact assembleContext_selR_irrel decode resp _ _ _ _ _ _ now hfetch

/-- C7: if a category's fetch succeeds with zero entries (the envelope
omits `entry` or the list is empty), its extractor returns the `None`
no-records signal — an ok value, distinct from an error — the assembler
produces exactly the context it would produce with the category dropped
from the selection (the block is omitted with no placeholder), and the
History View shows no rows of that category. -/
theorem claim7_empty_category (decode : String → Except String String)
    (resp : FhirResponses) (timeframe : String) (cts : List String) (now : Int) :
    (resp.allergies = .ok [] →
      get_allergies resp.allergies = .ok none ∧
      get_patient_context decode resp timeframe cts now =
        get_patient_context decode resp timeframe (cts.filter (· != "Allergies")) now ∧
      ∀ act hist, display_patient_history decode resp timeframe cts now = .ok (act, hist) →
        ∀ it ∈ act, it.type ≠ "Allergy") ∧
    (resp.medications = .ok [] →
      get_medications resp.medications (resolveTimeframe timeframe) now = .ok none ∧
      get_patient_context decode resp timeframe cts now =
        get_patient_context decode resp timeframe (cts.filter (· != "Medications")) now ∧
      ∀ act hist, display_patient_history decode resp timeframe cts now = .ok (act, hist) →
        (∀ it ∈ act, it.type ≠ "Medication") ∧ (∀ it ∈ hist, it.type ≠ "Medication")) ∧
    (resp.conditions = .ok [] →
      get_conditions resp.conditions (resolveTimeframe timeframe) now = .ok none ∧
      get_patient_context decode resp timeframe cts now =
        get_patient_context decode resp timeframe
          (cts.filter (· != "Previous Conditions")) now ∧
      ∀ act hist, display_patient_history decode resp timeframe cts now = .ok (act, hist) →
        (∀ it ∈ act, it.type ≠ "Condition") ∧ (∀ it ∈ hist, it.type ≠ "Condition")) ∧
    (resp.reports = .ok [] →
      get_reports decode resp.reports (resolveTimeframe timeframe) now = .ok none ∧
      get_patient_context decode resp timeframe cts now =
        get_patient_context decode resp timeframe
          (cts.filter (· != "Previous Reports")) now ∧
      ∀ act hist, display_patient_history decode resp timeframe cts now = .ok (act, hist) →
        ∀ it ∈ hist, it.type ≠ "Report") := by
  refine ⟨?_, ?_, ?_, ?_⟩
  · intro hfetch
    refine ⟨by rw [hfetch]; rfl,
      gpc_drop_allergies decode resp timeframe cts now hfetch, ?_⟩
    intro act hist h it hit
    obtain ⟨aRes, mRes, cRes, rRes, hA, hM, hC, hR, hact, hhist⟩ :=
      buildHistory_ok_inv decode resp (resolveTimeframe timeframe) _ _ _ _ now act hist h
    have haN : (if decide ("Allergies" ∈ cts) = true then get_allergies resp.allergies
        else .ok none) = .ok none :=
      hist_step_none _ _ (by rw [hfetch]; rfl)
    rw [haN] at hA
    have haN' : aRes = none := (exceptOk_inj hA).symm
    subst haN'
    rw [hact] at hit
    rcases mem_act_parts none mRes cRes it hit with ⟨ht, _⟩ | ⟨ht, _⟩ | ⟨_, hn⟩
    · rw [ht]; decide
    · rw [ht]; decide
    · exact absurd rfl hn
  · intro hfetch
    refine ⟨by rw [hfetch]; rfl,
      gpc_drop_medications decode resp timeframe cts now hfetch, ?_⟩
    intro act hist h
    obtain ⟨aRes, mRes, cRes, rRes, hA, hM, hC, hR, hact, hhist⟩ :=
      buildHistory_ok_inv decode resp (resolveTimeframe timeframe) _ _ _ _ now act hist h
    have hmN : (if decide ("Medications" ∈ cts) = true then
        get_medications resp.medications (resolveTimeframe timeframe) now
        else .ok none) = .ok none :=
      hist_step_none _ _ (by rw [hfetch]; rfl)
    rw [hmN] at hM
    have hmN' : mRes = none := (exceptOk_inj hM).symm
    subst hmN'
    constructor
    · intro it hit
      rw [hact] at hit
      rcases mem_act_parts aRes none cRes it hit with ⟨ht, _⟩ | ⟨_, hn⟩ | ⟨ht, _⟩
      · rw [ht]; decide
      · exact absurd rfl hn
      · rw [ht]; decide
    · intro it hit
      rw [hhist] at hit
      rcases mem_hist_parts none cRes rRes it hit with ⟨ht, _⟩ | ⟨_, hn⟩ | ⟨ht, _⟩
      · rw [ht]; decide
      · exact absurd rfl hn
      · rw [ht]; decide
  · intro hfetch
    refine ⟨by rw [hfetch]; rfl,
      gpc_drop_conditions decode resp timeframe cts now hfetch, ?_⟩
    intro act hist h
    obtain ⟨aRes, mRes, cRes, rRes, hA, hM, hC, hR, hact, hhist⟩ :=
      buildHistory_ok_inv decode resp (resolveTimeframe timeframe) _ _ _ _ now act hist h
    have hcN : (if decide ("Previous Conditions" ∈ cts) = true then
        get_conditions resp.conditions (resolveTimeframe timeframe) now
        else .ok none) = .ok none :=
      hist_step_none _ _ (by rw [hfetch]; rfl)
    rw [hcN] at hC
    have hcN' : cRes = none := (exceptOk_inj hC).symm
    subst hcN'
    constructor
    · intro it hit
      rw [hact] at hit
      rcases mem_act_parts aRes mRes none it hit with ⟨_, hn⟩ | ⟨ht, _⟩ | ⟨ht, _⟩
      · exact absurd rfl hn
      · rw [ht]; decide
      · rw [ht]; decide
    · intro it hit
      rw [hhist] at hit
      rcases mem_hist_parts mRes none rRes it hit with ⟨_, hn⟩ | ⟨ht, _⟩ | ⟨ht, _⟩
      · exact absurd rfl hn
      · rw [ht]; decide
      · rw [ht]; decide
  · intro hfetch
    refine ⟨by rw [hfetch]; rfl,
      gpc_drop_reports decode resp timeframe cts now hfetch, ?_⟩
    intro act hist h it hit
    obtain ⟨aRes, mRes, cRes, rRes, hA, hM, hC, hR, hact, hhist⟩ :=
      buildHistory_ok_inv decode resp (resolveTimeframe timeframe) _ _ _ _ now act hist h
    have hrN : (if decide ("Previous Reports" ∈ cts) = true then
        get_reports decode resp.reports (resolveTimeframe timeframe) now
        else .ok none) = .ok none :=
      hist_step_none _ _ (by rw [hfetch]; rfl)
    rw [hrN] at hR
    have hrN' : rRes = none := (exceptOk_inj hR).symm
    subst hrN'
    rw [hhist] at hit
    rcases mem_hist_parts mRes cRes none it hit with ⟨ht, _⟩ | ⟨ht, _⟩ | ⟨_, hn⟩
    · rw [ht]; decide
    · rw [ht]; decide
    · exact absurd rfl hn

/-- C7 (witness): the empty-category theorem applied to a concrete bundle
whose allergy fetch returns zero entries. -/
theorem claim7_witness :
    get_allergies (Except.ok ([] : List AllergyResource)) = .ok none ∧
    get_patient_context okDecode ⟨.ok [], .ok [stoppedMed (some 0)], .ok [], .ok []⟩
      "Last year" ["Allergies", "Medications"] 0 =
    get_patient_context okDecode ⟨.ok [], .ok [stoppedMed (some 0)], .ok [], .ok []⟩
      "Last year" (["Allergies", "Medications"].filter (· != "Allergies")) 0 := by
  have h := (claim7_empty_category okDecode
    ⟨.ok [], .ok [stoppedMed (some 0)], .ok [], .ok []⟩
    "Last year" ["Allergies", "Medications"] 0).1 rfl
  exact ⟨h.1, h.2.1⟩

/-! ## Claim C9 -/

theorem dateLe_total (a b : DateVal) : dateLe a b = true ∨ dateLe b a = true := by
  cases a <;> cases b <;> simp [dateLe]
  omega

theorem dateLe_trans (a b c : DateVal)
    (h1 : dateLe a b = true) (h2 : dateLe b c = true) : dateLe a c = true := by
  cases a <;> cases b <;> cases c <;> simp [dateLe] at h1 h2 ⊢
  omega

theorem dateLe_none_right (d : DateVal) (h : dateLe d none = true) : d = none := by
  cases d with
  | none => rfl
  | some x => exact absurd h (by simp [dateLe])

theorem pairwise_insertDesc (x : HistItem) (l : List HistItem)
    (hl : l.Pairwise (fun a b => dateLe b.date a.date = true)) :
    (insertDesc x l).Pairwise (fun a b => dateLe b.date a.date = true) := by
  induction l with
  | nil => simp [insertDesc]
  | cons y l ih =>
    rcases List.pairwise_cons.1 hl with ⟨hy, hl'⟩
    by_cases hz : dateLe y.date x.date = true
    · simp only [insertDesc]
      rw [if_pos hz]
      refine List.pairwise_cons.2 ⟨?_, hl⟩
      intro z hzl
      rcases List.mem_cons.1 hzl with rfl | hzl'
      · exact hz
      · exact dateLe_trans z.date y.date x.date (hy z hzl') hz
    · simp only [insertDesc]
      rw [if_neg hz]
      refine List.pairwise_cons.2 ⟨?_, ih hl'⟩
      intro z hzl
      rcases (mem_insertDesc x z l).1 hzl with rfl | hzl'
      · rcases dateLe_total z.date y.date with h | h
        · exact h
        · exact absurd h hz
      · exact hy z hzl'

theorem pairwise_sortDesc (l : List HistItem) :
    (sortDesc l).Pairwise (fun a b => dateLe b.date a.date = true) := by
  induction l with
  | nil => simp [sortDesc]
  | cons x l ih => exact pairwise_insertDesc x _ ih

/-- C9: whenever the History View renders, its historical list is sorted by
each row's relevant date in descending order (every earlier row's date is
on/after every later row's date), and rows with a missing date all sit at
the end: once a row has no date, every row after it has no date. -/
theorem claim9_historical_sorted (decode : String → Except String String)
    (resp : FhirResponses) (timeframe : String) (cts : List String) (now : Int)
    (act hist : List HistItem)
    (h : display_patient_history decode resp timeframe cts now = .ok (act, hist)) :
    hist.Pairwise (fun a b => dateLe b.date a.date = true) ∧
    ∀ (i j : Nat) (hi : i < hist.length) (hj : j < hist.length), i < j →
      (hist.get ⟨i, hi⟩).date = none → (hist.get ⟨j, hj⟩).date = none := by
  obtain ⟨aRes, mRes, cRes, rRes, hA, hM, hC, hR, hact, hhist⟩ :=
    buildHistory_ok_inv decode resp (resolveTimeframe timeframe) _ _ _ _ now act hist h
  subst hhist
  refine ⟨pairwise_sortDesc _, ?_⟩
  intro i j hi hj hij hnone
  have hp := List.pairwise_iff_get.1 (pairwise_sortDesc _) ⟨i, hi⟩ ⟨j, hj⟩
    (Fin.mk_lt_mk.2 hij)
  rw [hnone] at hp
  exact dateLe_none_right _ hp

/-- Medication responses whose historical rows carry the dates −10, none
and −5: the view must order them −5, −10, none. -/
def respW : FhirResponses :=
  ⟨.ok [], .ok [stoppedMed (some (-10)), stoppedMed none, stoppedMed (some (-5))],
   .ok [], .ok []⟩

/-- The historical rows of `respW` in stable descending date order. -/
def histW : List HistItem :=
  [medItem (extractMed (stoppedMed (some (-5)))),
   medItem (extractMed (stoppedMed (some (-10)))),
   medItem (extractMed (stoppedMed none))]

/-- C9 (witness): the sortedness theorem applied at a concrete history. -/
theorem claim9_witness :
    histW.Pairwise (fun a b => dateLe b.date a.date = true) ∧
    ∀ (i j : Nat) (hi : i < histW.length) (hj : j < histW.length), i < j →
      (histW.get ⟨i, hi⟩).date = none → (histW.get ⟨j, hj⟩).date = none :=
  claim9_historical_sorted okDecode respW "All" ["Medications"] 0 [] histW rfl

/-! ## Claim C8 -/

/-- Executable check that `p` is a leading segment of `t`. -/
def isPrefixOfB : List Char → List Char → Bool
  | [], _ => true
  | _ :: _, [] => false
  | a :: as, b :: bs => a = b && isPrefixOfB as bs

/-- Executable check that `p` occurs contiguously inside `t`. -/
def infixB (p : List Char) : List Char → Bool
  | [] => isPrefixOfB p []
  | c :: ts => isPrefixOfB p (c :: ts) || infixB p ts

theorem isPrefixOfB_append (p y : List Char) : isPrefixOfB p (p ++ y) = true := by
  induction p with
  | nil => rfl
  | cons c cs ih => simp [isPrefixOfB, ih]

theorem infixB_head (p y : List Char) : infixB p (p ++ y) = true := by
  cases hpy : p ++ y with
  | nil =>
    have hp : p = [] := by cases p <;> simp_all
    subst hp
    rfl
  | cons c ts =>
    simp only [infixB]
    rw [← hpy, isPrefixOfB_append]
    rfl

theorem infixB_parts (x p y : List Char) : infixB p (x ++ p ++ y) = true := by
  induction x with
  | nil => simpa using infixB_head p y
  | cons c xs ih =>
    simp only [List.cons_append, infixB, Bool.or_eq_true]
    exact Or.inr ih

/-- If a string literally decomposes around `p`, then `p` is an infix of it. -/
theorem infixB_mid (x p y : String) : infixB p.data (x ++ p ++ y).data = true := by
  have hd : (x ++ p ++ y).data = x.data ++ p.data ++ y.data := by
    simp [String.data_append]
  rw [hd]
  exact infixB_parts x.data p.data y.data

theorem infixB_left (p y : String) : infixB p.data (p ++ y).data = true := by
  have h := infixB_mid "" p y
  rwa [String.empty_append] at h

/-- Inversion of a successful conditions extraction: the rendered text is
the conditions block over the returned lists. -/
theorem get_conditions_ok_some (resp : Except String (List CondResource))
    (tf : Option Nat) (now : Int) (act hist : List CondInfo) (txt : String)
    (h : get_conditions resp tf now = .ok (some (act, hist, txt))) :
    txt = conditionsText tf act hist := by
  cases resp with
  | error e => exact Except.noConfusion h
  | ok entries =>
    simp only [get_conditions] at h
    by_cases he : entries.isEmpty = true
    · rw [if_pos he] at h
      exact Option.noConfusion (exceptOk_inj h)
    · rw [if_neg he] at h
      have hx := Option.some.inj (exceptOk_inj h)
      have h1 : (condPartition tf now entries).1 = act := congrArg (fun x => x.1) hx
      have h2 : (condPartition tf now entries).2 = hist := congrArg (fun x => x.2.1) hx
      have h4 : conditionsText tf (condPartition tf now entries).1
          (condPartition tf now entries).2 = txt := congrArg (fun x => x.2.2) hx
      rw [← h4, h1, h2]

/-- Inversion of a successful medications extraction. -/
theorem get_medications_ok_some (resp : Except String (List MedResource))
    (tf : Option Nat) (now : Int) (act hist : List MedInfo) (txt : String)
    (h : get_medications resp tf now = .ok (some (act, hist, txt))) :
    txt = medicationsText tf act hist := by
  cases resp with
  | error e => exact Except.noConfusion h
  | ok entries =>
    simp only [get_medications] at h
    by_cases he : entries.isEmpty = true
    · rw [if_pos he] at h
      exact Option.noConfusion (exceptOk_inj h)
    · rw [if_neg he] at h
      have hx := Option.some.inj (exceptOk_inj h)
      have h1 : (medPartition tf now entries).1 = act := congrArg (fun x => x.1) hx
      have h2 : (medPartition tf now entries).2 = hist := congrArg (fun x => x.2.1) hx
      have h4 : medicationsText tf (medPartition tf now entries).1
          (medPartition tf now entries).2 = txt := congrArg (fun x => x.2.2) hx
      rw [← h4, h1, h2]

/-- Inversion of a successful reports extraction. -/
theorem get_reports_ok_some (decode : String → Except String String)
    (resp : Except String (List ReportResource)) (tf : Option Nat) (now : Int)
    (recent older : List RepInfo) (txt : String)
    (h : get_reports decode resp tf now = .ok (some (recent, older, txt))) :
    txt = reportsText tf recent older := by
  cases resp with
  | error e => exact Except.noConfusion h
  | ok entries =>
    simp only [get_reports] at h
    by_cases he : entries.isEmpty = true
    · rw [if_pos he] at h
      exact Option.noConfusion (exceptOk_inj h)
    · rw [if_neg he] at h
      cases hp : reportsPartition decode tf now entries with
      | error e =>
        simp only [hp] at h
        exact Except.noConfusion h
      | ok p =>
        simp only [hp] at h
        have hx := Option.some.inj (exceptOk_inj h)
        have h1 : p.1 = recent := congrArg (fun x => x.1) hx
        have h2 : p.2 = older := congrArg (fun x => x.2.1) hx
        have h4 : reportsText tf p.1 p.2 = txt := congrArg (fun x => x.2.2) hx
        rw [← h4, h1, h2]

/-- C8 (amended): whenever the conditions or medications fetch returns at
least one entry, the rendered block contains its full skeleton — both
section headers always, and a single explanatory line for each empty
sub-list; the reports block renders its explanatory line for an empty
recent sub-list, but when there are no older reports the older-reports
sub-section is omitted entirely, with no explanatory line — the text is
exactly the header plus the recent section. -/
theorem claim8_amended (decode : String → Except String String)
    (tf : Option Nat) (now : Int) :
    (∀ resp act hist txt, get_conditions resp tf now = .ok (some (act, hist, txt)) →
      infixB "Patient's Current Medical Conditions:\n".data txt.data = true ∧
      (act = [] → infixB "No active medical conditions.\n".data txt.data = true) ∧
      infixB (condHistHeader tf).data txt.data = true ∧
      (hist = [] →
        infixB "No historical conditions in the specified timeframe.\n".data
          txt.data = true)) ∧
    (∀ resp act hist txt, get_medications resp tf now = .ok (some (act, hist, txt)) →
      infixB "Patient's Current Medications:\n".data txt.data = true ∧
      (act = [] → infixB "No active medications.\n".data txt.data = true) ∧
      infixB (medHistHeader tf).data txt.data = true ∧
      (hist = [] →
        infixB "No historical medications in the specified timeframe.\n".data
          txt.data = true)) ∧
    (∀ resp recent older txt,
      get_reports decode resp tf now = .ok (some (recent, older, txt)) →
      (recent = [] →
        infixB "No recent diagnostic reports found.\n".data txt.data = true) ∧
      (older = [] → txt = reportsHeader tf ++ recentReportsBlock recent)) := by
  refine ⟨?_, ?_, ?_⟩
  · intro resp act hist txt h
    have htxt := get_conditions_ok_some resp tf now act hist txt h
    subst htxt
    refine ⟨?_, ?_, ?_, ?_⟩
    · have e : conditionsText tf act hist =
          "Patient's Current Medical Conditions:\n" ++
          (condActiveBlock act ++ (condHistHeader tf ++ condHistBlock hist)) := by
        simp [conditionsText, String.append_assoc]
      rw [e]
      exact infixB_left _ _
    · intro hact
      subst hact
      have e : conditionsText tf [] hist =
          "Patient's Current Medical Conditions:\n" ++
          "No active medical conditions.\n" ++
          (condHistHeader tf ++ condHistBlock hist) := by
        simp [conditionsText, condActiveBlock, String.append_assoc]
      rw [e]
      exact infixB_mid _ _ _
    · have e : conditionsText tf act hist =
          ("Patient's Current Medical Conditions:\n" ++ condActiveBlock act) ++
          condHistHeader tf ++ condHistBlock hist := by
        simp [conditionsText, String.append_assoc]
      rw [e]
      exact infixB_mid _ _ _
    · intro hhist
      subst hhist
      have e : conditionsText tf act [] =
          ("Patient's Current Medical Conditions:\n" ++ condActiveBlock act ++
            condHistHeader tf) ++
          "No historical conditions in the specified timeframe.\n" ++ "" := by
        simp [conditionsText, condHistBlock, String.append_assoc, String.append_empty]
      rw [e]
      exact infixB_mid _ _ _
  · intro resp act hist txt h
    have htxt := get_medications_ok_some resp tf now act hist txt h
    subst htxt
    refine ⟨?_, ?_, ?_, ?_⟩
    · have e : medicationsText tf act hist =
          "Patient's Current Medications:\n" ++
          (medActiveBlock act ++ (medHistHeader tf ++ medHistBlock hist)) := by
        simp [medicationsText, String.append_assoc]
      rw [e]
      exact infixB_left _ _
    · intro hact
      subst hact
      have e : medicationsText tf [] hist =
          "Patient's Current Medications:\n" ++ "No active medications.\n" ++
          (medHistHeader tf ++ medHistBlock hist) := by
        simp [medicationsText, medActiveBlock, String.append_assoc]
      rw [e]
      exact infixB_mid _ _ _
    · have e : medicationsText tf act hist =
          ("Patient's Current Medications:\n" ++ medActiveBlock act) ++
          medHistHeader tf ++ medHistBlock hist := by
        simp [medicationsText, String.append_assoc]
      rw [e]
      exact infixB_mid _ _ _
    · intro hhist
      subst hhist
      have e : medicationsText tf act [] =
          ("Patient's Current Medications:\n" ++ medActiveBlock act ++
            medHistHeader tf) ++
          "No historical medications in the specified timeframe.\n" ++ "" := by
        simp [medicationsText, medHistBlock, String.append_assoc, String.append_empty]
      rw [e]
      exact infixB_mid _ _ _
  · intro resp recent older txt h
    have htxt := get_reports_ok_some decode resp tf now recent older txt h
    subst htxt
    constructor
    · intro hrec
      subst hrec
      have e : reportsText tf [] older =
          reportsHeader tf ++ "No recent diagnostic reports found.\n" ++
          olderReportsSection tf older := by
        simp [reportsText, recentReportsBlock]
      rw [e]
      exact infixB_mid _ _ _
    · intro hold
      subst hold
      have hos : olderReportsSection tf [] = "" := by cases tf <;> rfl
      simp [reportsText, hos, String.append_empty]

/-- A report landing in the recent list under the 3-month window. -/
def reportRecent : ReportResource :=
  { id := "rr", status := "final", effectiveDate := some 0, performer := "Lab",
    presentedForm := ["pay"], category := ["LAB"], code := ["CBC"] }

set_option maxRecDepth 8192 in
/-- C8 (counterexample): with one fetched report, classified recent under
the 3-month window, the older-reports sub-list is empty and the rendered
block contains no older-reports sub-section at all — not even the word
`Older` occurs in it — refuting "each empty sub-list renders as a single
explanatory line". -/
theorem claim8_counterexample :
    get_reports okDecode (.ok [reportRecent]) (some 3) 0 =
      .ok (some ([extractReport reportRecent "pay"], [],
        reportsText (some 3) [extractReport reportRecent "pay"] [])) ∧
    infixB "Older".data
      (reportsText (some 3) [extractReport reportRecent "pay"] []).data = false := by
  exact ⟨rfl, rfl⟩

/-- C8 (witness): the amended claim applied at a concrete input with an
empty active sub-list. -/
theorem claim8_witness :
    infixB "Patient's Current Medical Conditions:\n".data
      (conditionsText none [] [extractCond condResolvedNoDate]).data = true ∧
    infixB "No active medical conditions.\n".data
      (conditionsText none [] [extractCond condResolvedNoDate]).data = true := by
  have h := (claim8_amended okDecode none 0).1 (.ok [condResolvedNoDate])
    [] [extractCond condResolvedNoDate]
    (conditionsText none [] [extractCond condResolvedNoDate]) rfl
  exact ⟨h.1, h.2.1 rfl⟩

end SageScript
